import Mathlib

/-!
# FNode: link validation and shader generation

A shallow embedding of `src/fnode.c` (the node-graph editor front end of FNode).
The embedded parts are the link validator and commit loop of `UpdateNodesLink`,
the code generator `CompileShader` / `CheckConstant` / `CompileNode`, the data
file written by `CompileShader` and read by `CheckPreviousShader`, and
`ClearUnusedNodes`.

Conventions:
* C `int` fields are `Int`; array indices are `Nat`.
* A dereference `nodes[index]` with `index == -1`, and a call
  `TraceLogFNode(true, ...)`, end the computation with an error.
* Floating point values are carried as the text that `%.3f` prints for them.
  What `%f` writes of them to the data file and what is read back from it is
  not determined by that text and is given by a `ValueFormat`.
* The fixed sizes of the local `char` buffers are not modelled.
-/

namespace FNodeEditor

/-! ## Data model -/

/-- Modelled from the spec: the node type enumeration `FNodeType` is declared in
`fnode.h`, which is not part of the sources. The enumerators are listed in the
order in which `CheckPreviousShader` enumerates them (lines 163-214); this order
agrees with every range test of `fnode.c` (`type < FNODE_ADD`,
`type >= FNODE_MATRIX && type <= FNODE_VECTOR4`,
`type < FNODE_MATRIX && type > FNODE_E`, `type >= FNODE_ADD && type <= FNODE_DIVIDE`,
`type >= FNODE_PROJECTION && type <= FNODE_HALFDIRECTION`, `type >= FNODE_VERTEX`).
Only the order of the enumerators is used. -/
inductive FNodeType where
  | FNODE_PI
  | FNODE_E
  | FNODE_VERTEXPOSITION
  | FNODE_VERTEXNORMAL
  | FNODE_FRESNEL
  | FNODE_VIEWDIRECTION
  | FNODE_MVP
  | FNODE_MATRIX
  | FNODE_VALUE
  | FNODE_VECTOR2
  | FNODE_VECTOR3
  | FNODE_VECTOR4
  | FNODE_ADD
  | FNODE_SUBTRACT
  | FNODE_MULTIPLY
  | FNODE_DIVIDE
  | FNODE_APPEND
  | FNODE_ONEMINUS
  | FNODE_ABS
  | FNODE_COS
  | FNODE_SIN
  | FNODE_TAN
  | FNODE_DEG2RAD
  | FNODE_RAD2DEG
  | FNODE_NORMALIZE
  | FNODE_NEGATE
  | FNODE_RECIPROCAL
  | FNODE_SQRT
  | FNODE_TRUNC
  | FNODE_ROUND
  | FNODE_CEIL
  | FNODE_CLAMP01
  | FNODE_EXP2
  | FNODE_POWER
  | FNODE_STEP
  | FNODE_POSTERIZE
  | FNODE_MAX
  | FNODE_MIN
  | FNODE_LERP
  | FNODE_SMOOTHSTEP
  | FNODE_CROSSPRODUCT
  | FNODE_DESATURATE
  | FNODE_DISTANCE
  | FNODE_DOTPRODUCT
  | FNODE_LENGTH
  | FNODE_MULTIPLYMATRIX
  | FNODE_TRANSPOSE
  | FNODE_PROJECTION
  | FNODE_REJECTION
  | FNODE_HALFDIRECTION
  | FNODE_VERTEX
  | FNODE_FRAGMENT
  deriving DecidableEq, Repr

open FNodeType

/-- Position of an enumerator in the enumeration: the value that the C
comparisons `<`, `<=`, `>`, `>=` on node types compare. -/
def FNodeType.rank (t : FNodeType) : Nat := t.toCtorIdx

/-- Node record (`FNodeData` behind the pointer type `FNode`), restricted to the
fields that link validation, code generation and the snapshot read. `dataCount`
is `output.dataCount`; `data` holds `output.data[k].value`, each as the text that
`%.3f` prints for it; `shapeX` and `shapeY` are `shape.x` and `shape.y`, the
placement of the node. -/
structure FNode where
  id : Int
  type : FNodeType
  inputs : List Int
  inputsCount : Int
  inputsLimit : Int
  dataCount : Int
  data : List String
  shapeX : Int := 0
  shapeY : Int := 0
  deriving DecidableEq, Repr

/-- Line record (`FLineData`): `from_` and `to_` are the fields `from` and `to`. -/
structure FLine where
  id : Int
  from_ : Int
  to_ : Int
  deriving DecidableEq, Repr

/-- Ways in which the embedded C code stops without a result. -/
inductive Err where
  /-- Dereference of `nodes[index]` where `index` is `-1` (or out of the table). -/
  | badIndex
  /-- Call of `TraceLogFNode(true, ...)`, the fatal log. -/
  | fatal
  /-- The recursion bound of the model was reached. -/
  | outOfFuel
  deriving DecidableEq, Repr

/-- The slot `node->inputs[i]`; slots that were never written hold `-1`. -/
def FNode.input (n : FNode) (i : Nat) : Int := n.inputs.getD i (-1)

/-- Modelled from the spec: `GetNodeIndex` of `fnode.h` (not part of the
sources) returns the index in `nodes` of the node whose id is `id`, and `-1`
(here `none`) when no node has that id. -/
def GetNodeIndex : List FNode → Int → Option Nat
  | [], _ => none
  | n :: rest, id => if n.id = id then some 0 else (GetNodeIndex rest id).map (· + 1)

/-- The dereference `nodes[index]` for an index returned by `GetNodeIndex`. -/
def nodeAt (nodes : List FNode) (index : Option Nat) : Except Err FNode :=
  match index with
  | none => .error .badIndex
  | some k =>
    match nodes[k]? with
    | some n => .ok n
    | none => .error .badIndex

/-! ## Link validator (`UpdateNodesLink`, lines 516-559) -/

/-- The consistency check of lines 533-539 and 545-551: once the destination has
an input, the source must have the arity of the node in `inputs[0]`; a failed
lookup is reported with the fatal log. -/
def firstInputCheck (nodes : List FNode) (d s : FNode) (valuesCheck : Bool) : Except Err Bool :=
  if valuesCheck ∧ d.inputsCount > 0 then
    match GetNodeIndex nodes (d.input 0) with
    | some index => do
      let f ← nodeAt nodes (some index)
      pure (decide (s.dataCount = f.dataCount))
    | none => .error .fatal
  else pure valuesCheck

/-- The variable `valuesCheck` after the `if` chain of lines 518-555, for the
destination `d = nodes[i]` and the source index `indexFrom`. -/
def valuesCheck (nodes : List FNode) (d : FNode) (indexFrom : Option Nat) : Except Err Bool :=
  if d.type = FNODE_APPEND then do
    let s ← nodeAt nodes indexFrom
    pure (decide (d.dataCount + s.dataCount ≤ 4) && decide (s.dataCount = 1))
  else if d.type = FNODE_POWER ∧ d.inputsCount = 1 then do
    let s ← nodeAt nodes indexFrom
    pure (decide (s.dataCount = 1))
  else if d.type = FNODE_STEP then do
    let s ← nodeAt nodes indexFrom
    pure (decide (s.dataCount = 1))
  else if d.type = FNODE_NORMALIZE then do
    let s ← nodeAt nodes indexFrom
    pure (decide (s.dataCount > 1) && decide (s.dataCount ≤ 4))
  else if d.type = FNODE_CROSSPRODUCT then do
    let s ← nodeAt nodes indexFrom
    pure (decide (s.dataCount = 3))
  else if d.type = FNODE_DESATURATE then
    if d.inputsCount = 0 then do
      let s ← nodeAt nodes indexFrom
      pure (decide (s.dataCount < 4))
    else if d.inputsCount = 1 then do
      let s ← nodeAt nodes indexFrom
      pure (decide (s.dataCount = 1))
    else pure true
  else if d.type = FNODE_DOTPRODUCT ∨ d.type = FNODE_LENGTH
      ∨ (d.type.rank ≥ FNODE_PROJECTION.rank ∧ d.type.rank ≤ FNODE_HALFDIRECTION.rank) then do
    let s ← nodeAt nodes indexFrom
    firstInputCheck nodes d s (decide (s.dataCount > 1) && decide (s.dataCount ≤ 4))
  else if d.type = FNODE_DISTANCE then do
    let s ← nodeAt nodes indexFrom
    firstInputCheck nodes d s (decide (s.dataCount ≤ 4))
  else if d.type = FNODE_MULTIPLYMATRIX ∨ d.type = FNODE_TRANSPOSE then do
    let s ← nodeAt nodes indexFrom
    pure (decide (s.dataCount = 16))
  else if d.type.rank ≥ FNODE_VERTEX.rank then do
    let s ← nodeAt nodes indexFrom
    pure (decide (s.dataCount ≤ d.dataCount))
  else if d.type.rank > FNODE_DIVIDE.rank then do
    let s ← nodeAt nodes indexFrom
    pure (decide (d.dataCount = s.dataCount))
  else pure true

/-- The first disjunct of the condition of lines 557-559: a destination without
inputs whose type is not in the listed set takes any source. -/
def firstSlotFree (d : FNode) : Bool :=
  decide (d.inputsCount = 0) && decide (d.type ≠ FNODE_NORMALIZE)
    && decide (d.type ≠ FNODE_DOTPRODUCT) && decide (d.type ≠ FNODE_LENGTH)
    && decide (d.type ≠ FNODE_MULTIPLYMATRIX) && decide (d.type ≠ FNODE_TRANSPOSE)
    && decide (d.type ≠ FNODE_PROJECTION) && decide (d.type ≠ FNODE_DISTANCE)
    && decide (d.type ≠ FNODE_REJECTION) && decide (d.type ≠ FNODE_HALFDIRECTION)
    && decide (d.type ≠ FNODE_STEP)

/-- The decision of lines 516-559 for a candidate that passed the slot gate of
line 513: `true` when the edge is committed, `false` when it is rejected. -/
def linkAccepted (nodes : List FNode) (d : FNode) (from_ : Int) : Except Err Bool := do
  let indexFrom := GetNodeIndex nodes from_
  let check ← valuesCheck nodes d indexFrom
  pure (firstSlotFree d || check)

/-- The slot gate of line 513, without the mouse test: the destination is not
the source of the line being drawn and still has a free input. -/
def slotGate (d : FNode) (from_ : Int) : Bool :=
  decide (d.id ≠ from_) && decide (d.inputsCount < d.inputsLimit)

/-! ## Line registry and the link gesture (`UpdateNodesLink`, lines 458-599) -/

/-- Modelled from the spec: `DestroyNodeLine` of `fnode.h` (not part of the
sources) removes the given line from the line registry; the line is found by its
id and the lines after it move one place down. -/
def DestroyNodeLine (lines : List FLine) (line : FLine) : List FLine :=
  lines.eraseP (fun l => decide (l.id = line.id))

/-- Modelled from the spec: the id that `CreateNodeLine` of `fnode.h` (not part
of the sources) gives to a new line, the smallest non-negative integer that no
line of the registry uses. -/
def freeLineId (lines : List FLine) : Int :=
  match (List.range (lines.length + 1)).find? (fun i => lines.all (fun l => decide (l.id ≠ (i : Int)))) with
  | some i => (i : Int)
  | none => -1

/-- Modelled from the spec: `CreateNodeLine` of `fnode.h` (not part of the
sources) appends a new line with a fresh id, the given source and `to == -1`
to the line registry and returns it. -/
def CreateNodeLine (lines : List FLine) (from_ : Int) : List FLine × FLine :=
  let line : FLine := { id := freeLineId lines, from_ := from_, to_ := -1 }
  (lines ++ [line], line)

/-- The globals that `UpdateNodesLink` reads and writes. `tempLine` is the
record behind the pointer `tempLine` (which points into `lines`); `none` stands
for a pointer to no live line. -/
structure Editor where
  nodes : List FNode
  lines : List FLine
  tempLine : Option FLine
  lineState : Int
  selectedNode : Int
  commentState : Int
  selectedComment : Int
  deriving DecidableEq, Repr

/-- Mouse and keyboard state of one frame, as far as `UpdateNodesLink` tests it.
`overInput i` and `overOutput i` are the results of `CheckCollisionPointRec` for
the mouse position against `nodes[i]->inputShape` and `nodes[i]->outputShape`. -/
structure Mouse where
  leftPressed : Bool
  rightPressed : Bool
  altDown : Bool
  overInput : Nat → Bool
  overOutput : Nat → Bool

/-- Lines 561-583: an accepted edge from `t.from_` (the line being drawn) to the
node `d` is committed: a committed line with the same ends is destroyed, the line
being drawn is destroyed, and a new line, the last of the registry, gets the two
ends. `CalculateValues` is the function of that name of
`fnode.h` (not part of the sources), which recomputes the nodes from the nodes and
the lines; it is a parameter. -/
def commitLink (CalculateValues : List FNode → List FLine → List FNode) (st : Editor) (d : FNode) (t : FLine) :
    Editor :=
  let lines1 :=
    match st.lines.find? (fun l => decide (l.to_ = d.id) && decide (l.from_ = t.from_)) with
    | some l => DestroyNodeLine st.lines l
    | none => st.lines
  let from_ := t.from_
  let to_ := d.id
  let lines2 := DestroyNodeLine lines1 t
  let created := CreateNodeLine lines2 from_
  let lines3 := created.1.dropLast ++ [{ created.2 with to_ := to_ }]
  { st with
    lines := lines3
    tempLine := none
    lineState := 0
    nodes := CalculateValues (CalculateValues st.nodes lines3) lines3 }

/-- The loop of lines 511-588 over the nodes, given with their indices: the first
node under the mouse that passes the slot gate and the arity check takes the
line; a rejected candidate is logged and the loop goes on. -/
def linkLoop (CalculateValues : List FNode → List FLine → List FNode) (m : Mouse) (st : Editor) (t : FLine) :
    List (Nat × FNode) → Except Err Editor
  | [] => pure st
  | (i, d) :: rest =>
    if m.overInput i = true ∧ d.id ≠ t.from_ ∧ d.inputsCount < d.inputsLimit then do
      let accepted ← linkAccepted st.nodes d t.from_
      if accepted then pure (commitLink CalculateValues st d t)
      else do
        let _ ← nodeAt st.nodes (GetNodeIndex st.nodes t.from_)
        linkLoop CalculateValues m st t rest
    else linkLoop CalculateValues m st t rest

/-- Lines 468-476: the topmost node whose output is under the mouse starts a new
line. -/
def startLine (m : Mouse) (st : Editor) : List (Nat × FNode) → Editor
  | [] => st
  | (i, n) :: rest =>
    if m.overOutput i then
      let created := CreateNodeLine st.lines n.id
      { st with lines := created.1, tempLine := some created.2, lineState := 1 }
    else startLine m st rest

/-- Lines 480-504: the topmost node whose output (or else input) is under the
mouse loses every line that leaves (or else enters) it. -/
def cutLines (CalculateValues : List FNode → List FLine → List FNode) (m : Mouse) (st : Editor) :
    List (Nat × FNode) → Editor
  | [] => st
  | (i, n) :: rest =>
    if m.overOutput i then
      let lines1 := st.lines.reverse.foldl
        (fun ls l => if n.id = l.from_ then DestroyNodeLine ls l else ls) st.lines
      { st with lines := lines1, nodes := CalculateValues (CalculateValues st.nodes lines1) lines1 }
    else if m.overInput i then
      let lines1 := st.lines.reverse.foldl
        (fun ls l => if n.id = l.to_ then DestroyNodeLine ls l else ls) st.lines
      { st with lines := lines1, nodes := CalculateValues (CalculateValues st.nodes lines1) lines1 }
    else cutLines CalculateValues m st rest

/-- The function `UpdateNodesLink` (lines 458-599) for one frame. -/
def UpdateNodesLink (CalculateValues : List FNode → List FLine → List FNode) (m : Mouse) (st : Editor) :
    Except Err Editor :=
  if st.selectedNode = -1 ∧ st.commentState = 0 ∧ st.selectedComment = -1 then
    if st.lineState = 0 then
      if m.leftPressed then pure (startLine m st st.nodes.enum.reverse)
      else if m.rightPressed ∧ ¬ m.altDown then pure (cutLines CalculateValues m st st.nodes.enum.reverse)
      else pure st
    else if st.lineState = 1 then
      if m.leftPressed then
        match st.tempLine with
        | some t => linkLoop CalculateValues m st t st.nodes.enum
        | none => if st.nodes.enum.any (fun p => m.overInput p.1) then .error .badIndex else pure st
      else if m.rightPressed then
        match st.tempLine with
        | some t => pure { st with lines := DestroyNodeLine st.lines t, tempLine := none, lineState := 0 }
        | none => .error .badIndex
      else pure st
    else pure st
  else pure st

/-! ## Text output -/

/-- The text that `%02i` prints for an `int`: decimal, at least two characters
wide, padded with a zero on the left. -/
def fmt02i (n : Int) : String :=
  if n < 0 then "-" ++ toString n.natAbs
  else if n < 10 then "0" ++ toString n.toNat
  else toString n.toNat

/-- The text that the format `node_%02i` prints for a node id. -/
def nodeName (id : Int) : String := "node_" ++ fmt02i id

/-- The two shader files on disk: `none` when the file does not exist, else its
content. -/
structure Files where
  vertex : Option String
  fragment : Option String
  deriving DecidableEq, Repr

/-- The `FILE *` streams that `CompileShader` opens for writing. -/
inductive Stream where
  | vertexFile
  | fragmentFile
  deriving DecidableEq, Repr

/-- The call `fprintf(file, text)` for a text without conversions: the text is
appended to the file behind the stream. -/
def fprintf (fs : Files) (file : Stream) (text : String) : Files :=
  match file with
  | .vertexFile => { fs with vertex := some (fs.vertex.getD "" ++ text) }
  | .fragmentFile => { fs with fragment := some (fs.fragment.getD "" ++ text) }

/-- Whether the first list of characters starts the second. -/
def startsWithChars : List Char → List Char → Bool
  | [], _ => true
  | _ :: _, [] => false
  | a :: as, b :: bs => decide (a = b) && startsWithChars as bs

/-- Whether the first list of characters occurs in the second. -/
def containsChars (needle : List Char) : List Char → Bool
  | [] => needle.isEmpty
  | b :: bs => startsWithChars needle (b :: bs) || containsChars needle bs

/-- Modelled from the spec: `FSearch` of `fnode.h` (not part of the sources), the
textual presence check of a string in a file, against what has been written to
that file so far. A file that does not exist contains nothing. -/
def FSearch (file : Option String) (string : String) : Bool :=
  match file with
  | none => false
  | some text => containsChars string.toList text.toList

/-- The text `vHeader` of `CompileShader` (line 1008). -/
def vHeader : String :=
  "#version 330                     \n\n"

/-- The text `vIn` of `CompileShader` (lines 1012-1015). -/
def vIn : String :=
  "in vec3 vertexPosition;            \nin vec3 vertexNormal;              \nin vec2 vertexTexCoord;            \nin vec4 vertexColor;             \n\n"

/-- The text `vOut` of `CompileShader` (lines 1019-1022). -/
def vOut : String :=
  "out vec3 fragPosition;             \nout vec3 fragNormal;               \nout vec2 fragTexCoord;             \nout vec4 fragColor;              \n\n"

/-- The text `vUniforms` of `CompileShader` (line 1026). -/
def vUniforms : String :=
  "uniform mat4 mvpMatrix;          \n\n"

/-- The text `vMain` of `CompileShader` (lines 1034-1039). -/
def vMain : String :=
  "\nvoid main()                      \n\x7b                                  \n    fragPosition = vertexPosition; \n    fragNormal = vertexNormal;     \n    fragTexCoord = vertexTexCoord; \n    fragColor = vertexColor;     \n\n"

/-- The text `fHeader` of `CompileShader` (line 1064). -/
def fHeader : String :=
  "#version 330                     \n\n"

/-- The text `fIn` of `CompileShader` (lines 1069-1072). -/
def fIn : String :=
  "in vec3 fragPosition;             \nin vec3 fragNormal;               \nin vec2 fragTexCoord;             \nin vec4 fragColor;              \n\n"

/-- The text `fUniforms` of `CompileShader` (lines 1077-1080). -/
def fUniforms : String :=
  "uniform sampler2D texture0;       \nuniform vec4 colDiffuse;          \nuniform vec3 viewDirection;       \nuniform mat4 modelMatrix;       \n\n"

/-- The text `fOut` of `CompileShader` (line 1085). -/
def fOut : String :=
  "out vec4 finalColor;            \n\n"

/-- The text `fMain` of `CompileShader` (lines 1093-1094). -/
def fMain : String :=
  "\nvoid main()                      \n\x7b                                  \n"

/-! ## Code generator (`CheckConstant`, `CompileNode`, `CompileShader`) -/

/-- The value `node->output.data[k].value` as `%.3f` prints it. -/
def FNode.value3 (n : FNode) (k : Nat) : String := n.data.getD k "0.000"

/-- The function `CheckConstant` (lines 1123-1158). `junk` is the `int` that
`printf` fetches for the conversion `%02i` in lines 1127 and 1128, where the call
passes no argument for it. The first argument bounds the depth of the
recursion. -/
def CheckConstant (nodes : List FNode) (junk : Int) :
    Nat → FNode → Files → Stream → Except Err Files
  | 0, _, _, _ => .error .outOfFuel
  | fuel + 1, node, fs, file =>
    match node.type with
    | FNODE_PI =>
      pure (fprintf fs file ("const float " ++ nodeName junk ++ " = 3.14159265358979323846;\n"))
    | FNODE_E =>
      pure (fprintf fs file ("const float " ++ nodeName junk ++ " = 2.71828182845904523536;\n"))
    | FNODE_VALUE =>
      pure (fprintf fs file ("const float " ++ nodeName node.id ++ " = " ++ node.value3 0 ++ ";\n"))
    | FNODE_VECTOR2 =>
      pure (fprintf fs file ("const vec2 " ++ nodeName node.id ++ " = vec2(" ++ node.value3 0 ++ ", "
        ++ node.value3 1 ++ ");\n"))
    | FNODE_VECTOR3 =>
      pure (fprintf fs file ("const vec3 " ++ nodeName node.id ++ " = vec3(" ++ node.value3 0 ++ ", "
        ++ node.value3 1 ++ ", " ++ node.value3 2 ++ ");\n"))
    | FNODE_VECTOR4 =>
      pure (fprintf fs file ("const vec4 " ++ nodeName node.id ++ " = vec4(" ++ node.value3 0 ++ ", "
        ++ node.value3 1 ++ ", " ++ node.value3 2 ++ ", " ++ node.value3 3 ++ ");\n"))
    | _ =>
      (List.range node.inputsCount.toNat).foldlM
        (fun fs i => do
          let input ← nodeAt nodes (GetNodeIndex nodes (node.input i))
          CheckConstant nodes junk fuel input fs file)
        fs

/-- The test `(type < FNODE_MATRIX) && (type > FNODE_E)` of lines 1164, 1170 and
1210: the node is one of the uniforms. -/
def isUniform (t : FNodeType) : Bool :=
  decide (t.rank < FNODE_MATRIX.rank) && decide (t.rank > FNODE_E.rank)

/-- The string `check` of lines 1174-1187. -/
def checkText (node : FNode) (fragment : Bool) : String :=
  if node.dataCount = 1 then "float " ++ nodeName node.id
  else if node.dataCount = 2 then "vec2 " ++ nodeName node.id
  else if node.dataCount = 3 then
    if fragment then "vec3 " ++ nodeName node.id
    else if node.type = FNODE_VERTEXPOSITION then "vec4 " ++ nodeName node.id
    else ""
  else if node.dataCount = 4 then "vec4 " ++ nodeName node.id
  else if node.dataCount = 16 then "mat4 " ++ nodeName node.id
  else ""

/-- The string `definition` of lines 1194-1207. -/
def definitionText (node : FNode) (fragment : Bool) : String :=
  if node.dataCount = 1 then "    float " ++ nodeName node.id ++ " = "
  else if node.dataCount = 2 then "    vec2 " ++ nodeName node.id ++ " = "
  else if node.dataCount = 3 then
    if fragment then "    vec3 " ++ nodeName node.id ++ " = "
    else if node.type = FNODE_VERTEXPOSITION then "    vec4 " ++ nodeName node.id ++ " = "
    else ""
  else if node.dataCount = 4 then "    vec4 " ++ nodeName node.id ++ " = "
  else if node.dataCount = 16 then "    mat4 " ++ nodeName node.id ++ " = "
  else ""

/-- The text appended to `body` for a uniform (lines 1213-1225). -/
def uniformText (node : FNode) (fragment : Bool) : String :=
  match node.type with
  | FNODE_VERTEXPOSITION => if fragment then "fragPosition;\n" else "vec4(vertexPosition, 1.0);\n"
  | FNODE_VERTEXNORMAL => "fragNormal;\n"
  | FNODE_FRESNEL => "1 - dot(fragNormal, viewDirection);\n"
  | FNODE_VIEWDIRECTION => "viewDirection;\n"
  | FNODE_MVP => "mvpMatrix;\n"
  | _ => ""

/-- The operator sign appended after an operand that is not the last one
(lines 1237-1245). -/
def infixSign (t : FNodeType) : String :=
  match t with
  | FNODE_ADD => " + "
  | FNODE_SUBTRACT => " - "
  | FNODE_MULTIPLYMATRIX => "*"
  | FNODE_MULTIPLY => "*"
  | FNODE_DIVIDE => "/"
  | _ => ""

/-- The text appended to `body` by the loop of lines 1230-1249. -/
def infixText (node : FNode) : String :=
  (List.range node.inputsCount.toNat).foldl
    (fun body (i : Nat) =>
      if ((i : Int) + 1) = node.inputsCount then body ++ (nodeName (node.input i) ++ ";\n")
      else body ++ (nodeName (node.input i) ++ infixSign node.type))
    ""

/-- One component of the projection constructor (lines 1310-1315). -/
def projectionComponent (a b c : String) : String :=
  "dot(" ++ a ++ ", " ++ b ++ ")/dot(" ++ b ++ ", " ++ b ++ ")*" ++ b ++ "." ++ c

/-- One component of the rejection constructor (lines 1323-1328). -/
def rejectionComponent (a b c : String) : String :=
  a ++ "." ++ c ++ " - dot(" ++ a ++ ", " ++ b ++ ")/dot(" ++ b ++ ", " ++ b ++ ")*" ++ b ++ "." ++ c

/-- The `switch` of lines 1308-1317: the projection text written to `temp`. -/
def projectionText (node : FNode) (temp : String) : String :=
  let a := nodeName (node.input 0)
  let b := nodeName (node.input 1)
  if node.dataCount = 2 then
    "vec2(" ++ projectionComponent a b "x" ++ ", " ++ projectionComponent a b "y" ++ ");\n"
  else if node.dataCount = 3 then
    "vec3(" ++ projectionComponent a b "x" ++ ", " ++ projectionComponent a b "y" ++ ", "
      ++ projectionComponent a b "z" ++ ");\n"
  else if node.dataCount = 4 then
    "vec4(" ++ projectionComponent a b "x" ++ ", " ++ projectionComponent a b "y" ++ ", "
      ++ projectionComponent a b "z" ++ ", " ++ projectionComponent a b "w" ++ ");\n"
  else temp

/-- The `switch` of lines 1321-1330: the rejection text written to `temp`. -/
def rejectionText (node : FNode) (temp : String) : String :=
  let a := nodeName (node.input 0)
  let b := nodeName (node.input 1)
  if node.dataCount = 2 then
    "vec2(" ++ rejectionComponent a b "x" ++ ", " ++ rejectionComponent a b "y" ++ ");\n"
  else if node.dataCount = 3 then
    "vec3(" ++ rejectionComponent a b "x" ++ ", " ++ rejectionComponent a b "y" ++ ", "
      ++ rejectionComponent a b "z" ++ ");\n"
  else if node.dataCount = 4 then
    "vec4(" ++ rejectionComponent a b "x" ++ ", " ++ rejectionComponent a b "y" ++ ", "
      ++ rejectionComponent a b "z" ++ ", " ++ rejectionComponent a b "w" ++ ");\n"
  else temp

/-- The text written to `temp` by the `switch` of lines 1254-1334. The case
`FNODE_PROJECTION` has no `break` and runs into the case `FNODE_REJECTION`. -/
def operatorText (node : FNode) : String :=
  let a := nodeName (node.input 0)
  let b := nodeName (node.input 1)
  let c := nodeName (node.input 2)
  let d := nodeName (node.input 3)
  match node.type with
  | FNODE_APPEND =>
    if node.dataCount = 1 then a ++ ";\n"
    else if node.dataCount = 2 then "vec2(" ++ a ++ ", " ++ b ++ ");\n"
    else if node.dataCount = 3 then "vec3(" ++ a ++ ", " ++ b ++ ", " ++ c ++ ");\n"
    else if node.dataCount = 4 then "vec4(" ++ a ++ ", " ++ b ++ ", " ++ c ++ ", " ++ d ++ ");\n"
    else ""
  | FNODE_ONEMINUS => "(1 - " ++ a ++ ");\n"
  | FNODE_ABS => "abs(" ++ a ++ ");\n"
  | FNODE_COS => "cos(" ++ a ++ ");\n"
  | FNODE_SIN => "sin(" ++ a ++ ");\n"
  | FNODE_TAN => "tan(" ++ a ++ ");\n"
  | FNODE_DEG2RAD => a ++ "*(3.14159265358979323846/180.0);\n"
  | FNODE_RAD2DEG => a ++ "*(180.0/3.14159265358979323846);\n"
  | FNODE_NORMALIZE => "normalize(" ++ a ++ ");\n"
  | FNODE_NEGATE => a ++ "*-1;\n"
  | FNODE_RECIPROCAL => "1/" ++ a ++ ";\n"
  | FNODE_SQRT => "sqrt(" ++ a ++ ");\n"
  | FNODE_TRUNC => "trunc(" ++ a ++ ");\n"
  | FNODE_ROUND => "round(" ++ a ++ ");\n"
  | FNODE_CEIL => "ceil(" ++ a ++ ");\n"
  | FNODE_CLAMP01 => "clamp(" ++ a ++ ", 0.0, 1.0);\n"
  | FNODE_EXP2 => "exp2(" ++ a ++ ");\n"
  | FNODE_POWER => "pow(" ++ a ++ ", " ++ b ++ ");\n"
  | FNODE_STEP => "((" ++ a ++ " <= " ++ b ++ ") ? 1.0 : 0.0);\n"
  | FNODE_POSTERIZE => "floor(" ++ a ++ "*" ++ b ++ ")/" ++ b ++ ";\n"
  | FNODE_MAX => "max(" ++ a ++ ", " ++ b ++ ");\n"
  | FNODE_MIN => "min(" ++ a ++ ", " ++ b ++ ");\n"
  | FNODE_LERP => "lerp(" ++ a ++ ", " ++ b ++ ", " ++ c ++ ");\n"
  | FNODE_SMOOTHSTEP => "smoothstep(" ++ a ++ ", " ++ b ++ ", " ++ c ++ ");\n"
  | FNODE_CROSSPRODUCT => "cross(" ++ a ++ ", " ++ b ++ ");\n"
  | FNODE_DESATURATE =>
    if node.dataCount = 1 then "mix(" ++ a ++ ", 0.3, " ++ b ++ ");\n"
    else if node.dataCount = 2 then "vec2(mix(" ++ a ++ ".x, vec2(0.3, 0.59), " ++ b ++ "));\n"
    else if node.dataCount = 3 then
      "vec3(mix(" ++ a ++ ".xyz, vec3(0.3, 0.59, 0.11), " ++ b ++ "));\n"
    else if node.dataCount = 4 then
      "vec4(mix(" ++ a ++ ".xyz, vec3(0.3, 0.59, 0.11), " ++ b ++ "), 1.0);\n"
    else ""
  | FNODE_DISTANCE => "distance(" ++ a ++ ", " ++ b ++ ");\n"
  | FNODE_DOTPRODUCT => "dot(" ++ a ++ ", " ++ b ++ ");\n"
  | FNODE_LENGTH => "length(" ++ a ++ ");\n"
  | FNODE_TRANSPOSE => "transpose(" ++ a ++ ");\n"
  | FNODE_PROJECTION => rejectionText node (projectionText node "")
  | FNODE_REJECTION => rejectionText node ""
  | FNODE_HALFDIRECTION => "normalize(" ++ a ++ " + " ++ b ++ ");\n"
  | _ => ""

/-- The string `body` of lines 1193-1337: the declaration followed by the
expression of the node. -/
def bodyText (node : FNode) (fragment : Bool) : String :=
  definitionText node fragment ++
    (if isUniform node.type = true then uniformText node fragment
     else if (node.type.rank ≥ FNODE_ADD.rank ∧ node.type.rank ≤ FNODE_DIVIDE.rank)
        ∨ node.type = FNODE_MULTIPLYMATRIX then infixText node
     else if node.type.rank ≥ FNODE_APPEND.rank then operatorText node
     else "")

/-- The function `CompileNode` (lines 1161-1343). The guard of line 1190 always
searches the file at `FRAGMENT_PATH`, whatever the stream that is written. The
first argument bounds the depth of the recursion. -/
def CompileNode (nodes : List FNode) :
    Nat → FNode → Files → Stream → Bool → Except Err Files
  | 0, _, _, _, _ => .error .outOfFuel
  | fuel + 1, node, fs, file, fragment =>
    if node.inputsCount > 0 ∨ isUniform node.type = true then do
      let fs ← (List.range node.inputsCount.toNat).foldlM
        (fun fs i => do
          let input ← nodeAt nodes (GetNodeIndex nodes (node.input i))
          if input.type.rank > FNODE_VECTOR4.rank ∨ isUniform input.type = true then
            CompileNode nodes fuel input fs file fragment
          else pure fs)
        fs
      if FSearch fs.fragment (checkText node fragment) = true then pure fs
      else pure (fprintf fs file (bodyText node fragment))
    else pure fs

/-- The final statement of the vertex shader (lines 1044-1052), for the node
`input` that feeds the sink and the id `id` held in the sink's first slot. -/
def vertexFinal (input : FNode) (id : Int) : String :=
  if input.dataCount = 1 then
    "\n    gl_Position = vec4(" ++ nodeName id ++ ", " ++ nodeName id ++ ", " ++ nodeName id
      ++ ", 1.0);\n\x7d"
  else if input.dataCount = 2 then "\n    gl_Position = vec4(" ++ nodeName id ++ ".xy, 0.0, 1.0);\n\x7d"
  else if input.dataCount = 3 then "\n    gl_Position = vec4(" ++ nodeName id ++ ".xyz, 1.0);\n\x7d"
  else if input.dataCount = 4 then "\n    gl_Position = " ++ nodeName id ++ ";\n\x7d"
  else if input.dataCount = 16 then "\n    gl_Position = " ++ nodeName id ++ ";\n\x7d"
  else ""

/-- The final statement of the fragment shader (lines 1099-1106). -/
def fragmentFinal (input : FNode) (id : Int) : String :=
  if input.dataCount = 1 then
    "\n    finalColor = vec4(" ++ nodeName id ++ ", " ++ nodeName id ++ ", " ++ nodeName id
      ++ ", 1.0);\n\x7d"
  else if input.dataCount = 2 then "\n    finalColor = vec4(" ++ nodeName id ++ ".xy, 0.0, 1.0);\n\x7d"
  else if input.dataCount = 3 then "\n    finalColor = vec4(" ++ nodeName id ++ ".xyz, 1.0);\n\x7d"
  else if input.dataCount = 4 then "\n    finalColor = " ++ nodeName id ++ ";\n\x7d"
  else ""

/-- The function `CompileShader`, lines 1002-1110: the two shader files are
removed, then the vertex file and the fragment file are written in turn.
`nodes[0]` and `nodes[1]` are taken as the two sinks, as the source does. The
snapshot file of lines 943-1000 and the loading of the result are left out.
`fuel` bounds the depth of the two recursive passes. -/
def CompileShader (nodes : List FNode) (junk : Int) (fuel : Nat) : Except Err Files := do
  let fs : Files := { vertex := none, fragment := none }
  let fs : Files := { fs with vertex := some "" }
  let fs := fprintf fs .vertexFile vHeader
  let fs := fprintf fs .vertexFile vIn
  let fs := fprintf fs .vertexFile vOut
  let fs := fprintf fs .vertexFile vUniforms
  let fs := fprintf fs .vertexFile "// Constant values\n"
  let vertexSink ← nodeAt nodes (some 0)
  let vertexInput ← nodeAt nodes (GetNodeIndex nodes (vertexSink.input 0))
  let fs ← CheckConstant nodes junk fuel vertexInput fs .vertexFile
  let fs := fprintf fs .vertexFile vMain
  let fs ← CompileNode nodes fuel vertexInput fs .vertexFile false
  let fs := fprintf fs .vertexFile (vertexFinal vertexInput (vertexSink.input 0))
  let fs : Files := { fs with fragment := some "" }
  let fs := fprintf fs .fragmentFile fHeader
  let fs := fprintf fs .fragmentFile "// Input attributes\n"
  let fs := fprintf fs .fragmentFile fIn
  let fs := fprintf fs .fragmentFile "// Uniform attributes\n"
  let fs := fprintf fs .fragmentFile fUniforms
  let fs := fprintf fs .fragmentFile "// Output attributes\n"
  let fs := fprintf fs .fragmentFile fOut
  let fs := fprintf fs .fragmentFile "// Constant values\n"
  let fragmentSink ← nodeAt nodes (some 1)
  let fragmentInput ← nodeAt nodes (GetNodeIndex nodes (fragmentSink.input 0))
  let fs ← CheckConstant nodes junk fuel fragmentInput fs .fragmentFile
  let fs := fprintf fs .fragmentFile fMain
  let fs ← CompileNode nodes fuel fragmentInput fs .fragmentFile true
  let fs := fprintf fs .fragmentFile (fragmentFinal fragmentInput (fragmentSink.input 0))
  pure fs

/-! ## Committed lines and chains of lines -/

/-- A line is committed once its `to` end is set; a line being drawn has
`to == -1`. -/
def FLine.committed (l : FLine) : Bool := decide (l.to_ ≠ -1)

/-- The committed lines of a registry, in registry order. -/
def committedLines (lines : List FLine) : List FLine := lines.filter FLine.committed

/-- Whether a line goes from the node `f` to the node `t`. -/
def joins (f t : Int) (l : FLine) : Bool := decide (l.from_ = f) && decide (l.to_ = t)

/-- The (from, to) pairs of the committed lines, in registry order. -/
def committedPairs (lines : List FLine) : List (Int × Int) :=
  (committedLines lines).map (fun l => (l.from_, l.to_))

/-- A chain of one or more committed lines leads from the node `a` to the node
`b`. -/
inductive Reaches (lines : List FLine) : Int → Int → Prop where
  | step {a b : Int} (l : FLine) : l ∈ committedLines lines → l.from_ = a → l.to_ = b →
      Reaches lines a b
  | trans {a b c : Int} : Reaches lines a b → Reaches lines b c → Reaches lines a c

/-- The committed lines form a directed acyclic graph: no chain leads from a node
back to itself. -/
def Acyclic (lines : List FLine) : Prop := ∀ a, ¬ Reaches lines a a

/-- Modelled from the spec: the wiring that `CalculateValues` of `fnode.h` (not
part of the sources) gives the nodes. `inputs` of a node are the sources of the
lines that enter it, in registry order, the unset slots hold `-1`, and
`inputsCount` is their number; the other fields are kept. -/
def wireInputs (nodes : List FNode) (lines : List FLine) : List FNode :=
  nodes.map (fun n =>
    let sources := (lines.filter (fun l => decide (l.to_ = n.id))).map (fun l => l.from_)
    { n with
      inputs := sources ++ List.replicate (4 - sources.length) (-1)
      inputsCount := sources.length })

/-- The function `UpdateNodesLink` run over consecutive frames. -/
def UpdateNodesLinkFrames (CalculateValues : List FNode → List FLine → List FNode) :
    List Mouse → Editor → Except Err Editor
  | [], st => pure st
  | m :: rest, st => do
    let st1 ← UpdateNodesLink CalculateValues m st
    UpdateNodesLinkFrames CalculateValues rest st1

/-- The line registry of a run, if the run returns. -/
def linesOf (r : Except Err Editor) : Option (List FLine) :=
  match r with
  | .ok st => some st.lines
  | .error _ => none

/-! ## Clearing (`ClearUnusedNodes`, lines 1356-1378) -/

/-- Modelled from the spec: `DestroyNode` of `fnode.h` (not part of the sources)
removes the node, found by its id, from the node registry and removes every line
that has the node as `from` or as `to`. -/
def DestroyNode (nodes : List FNode) (lines : List FLine) (node : FNode) :
    List FNode × List FLine :=
  (nodes.eraseP (fun n => decide (n.id = node.id)),
   lines.filter (fun l => decide (l.from_ ≠ node.id) && decide (l.to_ ≠ node.id)))

/-- The flag `used` of lines 1360-1372 for a node: it is a sink, or a line of the
registry has it as `from` or as `to`. -/
def isUsed (lines : List FLine) (n : FNode) : Bool :=
  decide (n.type.rank ≥ FNODE_VERTEX.rank)
    || lines.any (fun l => decide (n.id = l.from_) || decide (n.id = l.to_))

/-- The loop of lines 1358-1375, over the nodes that are still to be visited, last
node first. -/
def clearLoop : List FNode → List FNode × List FLine → List FNode × List FLine
  | [], st => st
  | n :: rest, st =>
    if isUsed st.2 n = true then clearLoop rest st
    else clearLoop rest (DestroyNode st.1 st.2 n)

/-- The function `ClearUnusedNodes` (lines 1356-1378): the nodes are visited from
the last to the first, and a node that is not used is destroyed. -/
def ClearUnusedNodes (nodes : List FNode) (lines : List FLine) : List FNode × List FLine :=
  clearLoop nodes.reverse (nodes, lines)

/-! ## Snapshot (`CompileShader`, lines 943-1000, and `CheckPreviousShader`, lines 139-250) -/

/-- How the values of a node pass through the data file. Lines 960-969 write
each value with `%f`, six decimals, and lines 151-154 read the text back as a
`float`, so a value need not come back as it was: 1.2344999 prints `1.234` with
`%.3f`, is written as `1.234500`, and prints `1.235` once read back. The model
keeps of a value only the text that `%.3f` prints for it, which determines neither
the text written nor what is read back; both are given here. -/
structure ValueFormat where
  /-- The texts that `%f` prints for the values `output.data[k].value` of a node
  (lines 960-969). -/
  written : FNode → List String
  /-- The text that `%.3f` prints for the `float` that `fscanf` reads from a text
  of the file (lines 151-154 and 225). -/
  reread : String → String

/-- One node record of the data file (lines 966-969 and 151-154): the numbers of
a node in the order type, inputs, inputsCount, inputsLimit, dataCount, values,
shape x, shape y. The record has no id. The integers are taken to pass unchanged
through `float` and `%f`; `data` holds the values as `%f` wrote them. -/
structure NodeRecord where
  type : FNodeType
  inputs : List Int
  inputsCount : Int
  inputsLimit : Int
  dataCount : Int
  data : List String
  shapeX : Int
  shapeY : Int
  deriving DecidableEq, Repr

/-- The content of the data file: the node records, then the line records
`?from?to`. -/
structure Snapshot where
  nodes : List NodeRecord
  lines : List (Int × Int)
  deriving DecidableEq, Repr

/-- The record that lines 955-969 write for a node; the values are written as
the format `fmt` says. -/
def nodeRecord (fmt : ValueFormat) (n : FNode) : NodeRecord :=
  { type := n.type, inputs := n.inputs, inputsCount := n.inputsCount,
    inputsLimit := n.inputsLimit, dataCount := n.dataCount, data := fmt.written n,
    shapeX := n.shapeX, shapeY := n.shapeY }

/-- The loop of lines 949-977 over the ids `i` that are still to be tried, with
the number `count` of records written so far: the first node with id `i` is
written, and the loop ends once `count == nodesCount`. -/
def writeNodeRecords (fmt : ValueFormat) (nodes : List FNode) :
    List Nat → Nat → List NodeRecord
  | [], _ => []
  | i :: rest, count =>
    match nodes.find? (fun n => decide (n.id = (i : Int))) with
    | some n =>
      nodeRecord fmt n ::
        (if count + 1 = nodes.length then [] else writeNodeRecords fmt nodes rest (count + 1))
    | none => if count = nodes.length then [] else writeNodeRecords fmt nodes rest count

/-- The inner loop of lines 984-993 over the indices `k` that are still to be
tried: the first of the entries `lines[k]` whose id is `i`. An index at or above
`linesCount` reads no live line. -/
def findLineRecord (lines : List FLine) (i : Nat) : List Nat → Except Err (Option FLine)
  | [] => pure none
  | k :: rest =>
    match lines[k]? with
    | none => .error .badIndex
    | some l => if l.id = (i : Int) then pure (some l) else findLineRecord lines i rest

/-- The loop of lines 982-996 over the ids `i` that are still to be tried, with the
number `count` of records written so far. The inner loop runs over the indices
below `nodesCount`; the loop ends once `count == linesCount`. -/
def writeLineRecords (nodesCount : Nat) (lines : List FLine) :
    List Nat → Nat → Except Err (List (Int × Int))
  | [], _ => pure []
  | i :: rest, count => do
    let found ← findLineRecord lines i (List.range nodesCount)
    match found with
    | some l =>
      if count + 1 = lines.length then pure [(l.from_, l.to_)]
      else do
        let more ← writeLineRecords nodesCount lines rest (count + 1)
        pure ((l.from_, l.to_) :: more)
    | none => if count = lines.length then pure [] else writeLineRecords nodesCount lines rest count

/-- Lines 943-1000 of `CompileShader`: the data file written for the two
registries. `MAX_NODES` is the constant of that name of `fnode.h` (not part of
the sources). -/
def writeSnapshot (fmt : ValueFormat) (MAX_NODES : Nat) (nodes : List FNode)
    (lines : List FLine) : Except Err Snapshot := do
  let nodeRecords := writeNodeRecords fmt nodes (List.range MAX_NODES) 0
  let lineRecords ← writeLineRecords nodes.length lines (List.range MAX_NODES) 0
  pure { nodes := nodeRecords, lines := lineRecords }

/-- Comment record (`FCommentData` behind the pointer type `FComment`), restricted
to its id; the shapes and the text of a comment are not modelled. -/
structure FComment where
  id : Int
  deriving DecidableEq, Repr

/-- Modelled from the spec: `DestroyComment` of `fnode.h` (not part of the
sources) removes the comment, found by its id, from the comment registry. -/
def DestroyComment (comments : List FComment) (comment : FComment) : List FComment :=
  comments.eraseP (fun c => decide (c.id = comment.id))

/-- Modelled from the spec: the id that `CreateComment` of `fnode.h` (not part of
the sources) gives to a new comment, the smallest non-negative integer that no
comment of the registry uses. -/
def freeCommentId (comments : List FComment) : Int :=
  match (List.range (comments.length + 1)).find?
      (fun (i : Nat) => comments.all (fun c => decide (c.id ≠ (i : Int)))) with
  | some i => (i : Int)
  | none => -1

/-- Modelled from the spec: `CreateComment` of `fnode.h` (not part of the
sources) appends a comment with a fresh id to the comment registry and returns
it. -/
def CreateComment (comments : List FComment) : List FComment × FComment :=
  let comment : FComment := { id := freeCommentId comments }
  (comments ++ [comment], comment)

/-- The loop of lines 1383-1386, over the nodes that are still to be visited, last
node first: a node whose type is below `FNODE_VERTEX` is destroyed. -/
def clearGraphLoop : List FNode → List FNode × List FLine → List FNode × List FLine
  | [], st => st
  | n :: rest, st =>
    if n.type.rank < FNODE_VERTEX.rank then clearGraphLoop rest (DestroyNode st.1 st.2 n)
    else clearGraphLoop rest st

/-- The loop of line 1387, over the comments that are still to be visited, last
comment first: every comment is destroyed. -/
def clearCommentsLoop : List FComment → List FComment → List FComment
  | [], comments => comments
  | c :: rest, comments => clearCommentsLoop rest (DestroyComment comments c)

/-- The function `ClearGraph` (lines 1381-1390) on the three registries. -/
def ClearGraph (nodes : List FNode) (lines : List FLine) (comments : List FComment) :
    List FNode × List FLine × List FComment :=
  let cleared := clearGraphLoop nodes.reverse (nodes, lines)
  (cleared.1, cleared.2, clearCommentsLoop comments.reverse comments)

/-- The sinks of a node registry: the nodes whose type is `FNODE_VERTEX` or
above. -/
def sinkNodes (nodes : List FNode) : List FNode :=
  nodes.filter (fun n => decide (n.type.rank ≥ FNODE_VERTEX.rank))

/-! ## Arities -/

/-- Mouse and keyboard state of one frame, as the six update functions test it.
`mouse` is what `UpdateNodesLink` reads; `leftDown` is
`IsMouseButtonDown(MOUSE_LEFT_BUTTON)` (`IsMouseButtonUp` is its negation). The
other fields are the results of the collision tests of the frame: `overShape i`
for `nodes[i]->shape`, `overData i k` for `nodes[i]->output.data[k].shape`,
`overComment i` for `comments[i]->shape`, `overCommentValue i` for
`comments[i]->valueShape`, `overHandle i h` for the resize handle of
`comments[i]` that stands for `editSizeType == h` (lines 629-684), and
`commentTouches i k` for `comments[i]->shape` against `nodes[k]->shape`
(line 812). `target` is the position `mousePosition - currentOffset` of lines
442-443, after `AlignNode` when ALT is down; `delta` is `mouseDelta`; `rectValid`
is the test `tempRec.width >= 0 && tempRec.height >= 0` of line 777. -/
structure Frame where
  mouse : Mouse
  leftDown : Bool
  overShape : Nat → Bool
  overData : Nat → Nat → Bool
  overComment : Nat → Bool
  overCommentValue : Nat → Bool
  overHandle : Nat → Nat → Bool
  commentTouches : Nat → Nat → Bool
  target : Int × Int
  delta : Int × Int
  rectValid : Bool

/-- The globals that the six update functions read and write: the globals of
`UpdateNodesLink`, the comment registry, the comment being created, and the
sentinels `editNode`, `editNodeType`, `editComment`, `editSize`, `editSizeType`.
The camera, the scroll state and the text buffers are not modelled. -/
structure Session where
  editor : Editor
  comments : List FComment
  tempComment : Option FComment
  editNode : Int
  editNodeType : Int
  editComment : Int
  editSize : Int
  editSizeType : Int
  selectedCommentNodes : List Int
  deriving DecidableEq, Repr

/-- The variables `index` and `data` after the loop of lines 336-350, as the node
`nodes[index]` and `data`: the last constant node (`FNODE_MATRIX` to
`FNODE_VECTOR4`) with a value field under the mouse, and the first such field of
it. -/
def editTarget (f : Frame) (nodes : List FNode) : Option (FNode × Nat) :=
  nodes.enum.foldl
    (fun found p =>
      if p.2.type.rank ≥ FNODE_MATRIX.rank ∧ p.2.type.rank ≤ FNODE_VECTOR4.rank then
        match (List.range p.2.dataCount.toNat).find? (fun k => f.overData p.1 k) with
        | some k => some (p.2, k)
        | none => found
      else found)
    none

/-- The function `UpdateNodesEdit` (lines 330-398) for one frame. The copies
between `editNodeText` and the value texts are not modelled. -/
def UpdateNodesEdit (f : Frame) (s : Session) : Session :=
  if f.mouse.leftPressed then
    match editTarget f s.editor.nodes with
    | some (node, data) =>
      if s.editNode = -1 ∧ s.editor.selectedNode = -1 ∧ s.editor.lineState = 0
          ∧ s.editor.commentState = 0 ∧ s.editor.selectedComment = -1 ∧ s.editSize = -1
          ∧ s.editSizeType = -1 ∧ s.editComment = -1 then
        { s with editNode := node.id, editNodeType := data }
      else if s.editNode ≠ -1 ∧ s.editor.selectedNode = -1 ∧ s.editor.lineState = 0
          ∧ s.editor.commentState = 0 ∧ s.editor.selectedComment = -1 ∧ s.editSize = -1
          ∧ s.editSizeType = -1 ∧ s.editComment = -1 then
        if node.id ≠ s.editNode ∨ (data : Int) ≠ s.editNodeType then
          { s with editNode := node.id, editNodeType := data }
        else s
      else s
    | none =>
      if s.editNode ≠ -1 ∧ s.editNodeType ≠ -1 then { s with editNode := -1, editNodeType := -1 }
      else s
  else s

/-- Lines 438-451: the first node with the id `id` is placed at `pos`. -/
def placeNode (id : Int) (pos : Int × Int) : List FNode → List FNode
  | [] => []
  | n :: rest =>
    if n.id = id then { n with shapeX := pos.1, shapeY := pos.2 } :: rest
    else n :: placeNode id pos rest

/-- The function `UpdateNodesDrag` (lines 401-455) for one frame.
`CalculateValues` is a parameter as before; the camera offset of lines 417-421
is not modelled. -/
def UpdateNodesDrag (CalculateValues : List FNode → List FLine → List FNode) (f : Frame)
    (s : Session) : Session :=
  let e := s.editor
  if e.selectedNode = -1 ∧ e.lineState = 0 ∧ e.commentState = 0 ∧ e.selectedComment = -1 then
    if f.leftDown then
      match e.nodes.enum.reverse.find? (fun p => f.overShape p.1) with
      | some p => { s with editor := { e with selectedNode := p.2.id } }
      | none => s
    else if f.mouse.rightPressed then
      match e.nodes.enum.reverse.find?
          (fun p => f.overShape p.1 && decide (p.2.type.rank < FNODE_VERTEX.rank)) with
      | some p =>
        let destroyed := DestroyNode e.nodes e.lines p.2
        { s with editor :=
            { e with nodes := CalculateValues destroyed.1 destroyed.2, lines := destroyed.2 } }
      | none => s
    else s
  else if e.selectedNode ≠ -1 ∧ e.lineState = 0 ∧ e.commentState = 0
      ∧ e.selectedComment = -1 then
    let e1 := { e with nodes := placeNode e.selectedNode f.target e.nodes }
    if f.leftDown then { s with editor := e1 }
    else { s with editor := { e1 with selectedNode := -1 } }
  else s

/-- The loop of lines 627-685: the first comment with a resize handle under the
mouse, and the first such handle of it in the order of the `else if` chain. -/
def resizeTarget (f : Frame) : List (Nat × FComment) → Option (FComment × Nat)
  | [] => none
  | (i, c) :: rest =>
    match (List.range 8).find? (fun h => f.overHandle i h) with
    | some h => some (c, h)
    | none => resizeTarget f rest

/-- The function `UpdateCommentCreationEdit` (lines 602-792) for one frame. The
shapes of the comments are not modelled; the use of `tempComment` when it points
to no live comment ends the computation with an error. -/
def UpdateCommentCreationEdit (f : Frame) (s : Session) : Except Err Session :=
  let e := s.editor
  if e.selectedNode = -1 ∧ e.lineState = 0 ∧ e.selectedComment = -1 then
    if e.commentState = 0 then
      if f.mouse.leftPressed then
        if f.mouse.altDown then
          let created := CreateComment s.comments
          pure { s with
            editor := { e with commentState := 1 }
            comments := created.1
            tempComment := some created.2 }
        else
          match resizeTarget f s.comments.enum with
          | some (c, h) =>
            pure { s with
              editor := { e with commentState := 1 }
              editSize := c.id
              editSizeType := h }
          | none => pure s
      else pure s
    else if e.commentState = 1 then
      if s.editSize ≠ -1 then
        if f.leftDown then pure s
        else pure { s with editSize := -1, editSizeType := -1, editor := { e with commentState := 0 } }
      else
        match s.tempComment with
        | none => .error .badIndex
        | some t =>
          if f.leftDown then pure s
          else
            let comments1 := DestroyComment s.comments t
            pure { s with
              editor := { e with commentState := 0 }
              tempComment := none
              comments := if f.rectValid then (CreateComment comments1).1 else comments1 }
    else pure s
  else pure s

/-- The loop of lines 897-913: the flag `isCurrentText` and the variable
`editComment` after it. -/
def commentsEditLoop (f : Frame) (editComment : Int) : List (Nat × FComment) → Bool × Int
  | [] => (false, editComment)
  | (i, c) :: rest =>
    if c.id = editComment ∧ f.overCommentValue i = true then (true, editComment)
    else if f.overCommentValue i = true then (false, (i : Int))
    else commentsEditLoop f editComment rest

/-- The function `UpdateCommentsEdit` (lines 878-919) for one frame. -/
def UpdateCommentsEdit (f : Frame) (s : Session) : Session :=
  let e := s.editor
  if f.mouse.leftPressed then
    if s.editComment = -1 ∧ e.selectedNode = -1 ∧ e.lineState = 0 ∧ e.commentState = 0
        ∧ e.selectedComment = -1 ∧ s.editSize = -1 ∧ s.editSizeType = -1 ∧ s.editNode = -1 then
      match s.comments.enum.find? (fun p => f.overCommentValue p.1) with
      | some p => { s with editComment := (p.1 : Int) }
      | none => s
    else if s.editComment ≠ -1 ∧ e.selectedNode = -1 ∧ e.lineState = 0 ∧ e.commentState = 0
        ∧ e.selectedComment = -1 ∧ s.editSize = -1 ∧ s.editSizeType = -1 ∧ s.editNode = -1 then
      let r := commentsEditLoop f s.editComment s.comments.enum
      if r.1 = false ∧ s.editComment = r.2 then { s with editComment := -1 }
      else { s with editComment := r.2 }
    else s
  else s

/-- Lines 851-861: the first node with the id `id` is moved by `delta`. -/
def shiftNode (delta : Int × Int) (nodes : List FNode) (id : Int) : List FNode :=
  match nodes with
  | [] => []
  | n :: rest =>
    if n.id = id then { n with shapeX := n.shapeX + delta.1, shapeY := n.shapeY + delta.2 } :: rest
    else n :: shiftNode delta rest id

/-- The function `UpdateCommentsDrag` (lines 795-875) for one frame. The shapes
of the comments and the size `MAX_NODES` of `selectedCommentNodes` are not
modelled. -/
def UpdateCommentsDrag (f : Frame) (s : Session) : Session :=
  let e := s.editor
  if e.selectedComment = -1 ∧ e.lineState = 0 ∧ e.commentState = 0 ∧ e.selectedNode = -1 then
    if ¬ f.mouse.altDown = true then
      if f.leftDown then
        match s.comments.enum.reverse.find? (fun p => f.overComment p.1) with
        | some p =>
          { s with
            editor := { e with selectedComment := p.2.id }
            selectedCommentNodes := s.selectedCommentNodes
              ++ (e.nodes.enum.filter (fun q => f.commentTouches p.1 q.1)).map (fun q => q.2.id) }
        | none => s
      else s
    else if f.mouse.rightPressed then
      match s.comments.enum.reverse.find? (fun p => f.overComment p.1) with
      | some p => { s with comments := DestroyComment s.comments p.2 }
      | none => s
    else s
  else if e.selectedComment ≠ -1 ∧ e.lineState = 0 ∧ e.commentState = 0
      ∧ e.selectedNode = -1 then
    let nodes1 :=
      if s.comments.any (fun c => decide (c.id = e.selectedComment)) then
        s.selectedCommentNodes.foldl (shiftNode f.delta) e.nodes
      else e.nodes
    if f.leftDown then { s with editor := { e with nodes := nodes1 } }
    else
      { s with
        editor := { e with nodes := nodes1, selectedComment := -1 }
        selectedCommentNodes := [] }
  else s

/-- One pass of the main loop over the six update functions, in the order of
lines 90-95. -/
def UpdateFrame (CalculateValues : List FNode → List FLine → List FNode) (f : Frame)
    (s : Session) : Except Err Session := do
  let s1 := UpdateNodesEdit f s
  let s2 := UpdateNodesDrag CalculateValues f s1
  let e3 ← UpdateNodesLink CalculateValues f.mouse s2.editor
  let s4 ← UpdateCommentCreationEdit f { s2 with editor := e3 }
  let s5 := UpdateCommentsEdit f s4
  pure (UpdateCommentsDrag f s5)

/-- The six update functions run over consecutive frames. -/
def UpdateFrames (CalculateValues : List FNode → List FLine → List FNode) :
    List Frame → Session → Except Err Session
  | [], s => pure s
  | f :: rest, s => do
    let s1 ← UpdateFrame CalculateValues f s
    UpdateFrames CalculateValues rest s1

/-- The gesture flags of a session, in the order node drag, link, comment
creation or resize, comment drag, node value edit, comment text edit: each is
`true` when the gesture is active. -/
def activeGestures (s : Session) : List Bool :=
  [decide (s.editor.selectedNode ≠ -1), decide (s.editor.lineState ≠ 0),
   decide (s.editor.commentState ≠ 0), decide (s.editor.selectedComment ≠ -1),
   decide (s.editNode ≠ -1), decide (s.editComment ≠ -1)]

/-- The flags of a run, if the run returns. -/
def gesturesOf (r : Except Err Session) : Option (List Bool) :=
  match r with
  | .ok s => some (activeGestures s)
  | .error _ => none

/-- The number of active gestures among node drag, link, comment creation or
resize, and comment drag. -/
def pointerGestures (s : Session) : Nat :=
  ((activeGestures s).take 4).count true

/-- The number of active gestures among node value edit and comment text edit. -/
def textGestures (s : Session) : Nat :=
  ((activeGestures s).drop 4).count true

/-- A session in which no gesture is active, on the given registries. -/
def idleSession (nodes : List FNode) (lines : List FLine) (comments : List FComment) : Session :=
  { editor :=
      { nodes := nodes, lines := lines, tempLine := none, lineState := 0, selectedNode := -1,
        commentState := 0, selectedComment := -1 }
    comments := comments
    tempComment := none
    editNode := -1
    editNodeType := -1
    editComment := -1
    editSize := -1
    editSizeType := -1
    selectedCommentNodes := [] }

/-! ## Reading the generated text -/

/-- The vertex shader text of a compilation, if there is one. -/
def vertexText (r : Except Err Files) : Option String :=
  match r with
  | .ok fs => fs.vertex
  | .error _ => none

/-- The fragment shader text of a compilation, if there is one. -/
def fragmentText (r : Except Err Files) : Option String :=
  match r with
  | .ok fs => fs.fragment
  | .error _ => none

/-- Number of places at which the first list of characters occurs in the second. -/
def countChars (needle : List Char) : List Char → Nat
  | [] => 0
  | b :: bs => (if startsWithChars needle (b :: bs) then 1 else 0) + countChars needle bs

/-- Whether a text names the node `id`, that is, contains `node_<id>`. -/
def mentionsNode (text : String) (id : Int) : Bool :=
  containsChars (nodeName id).toList text.toList

/-- Number of declarations of the node `id` in a text: the places where a type
keyword of the generator is followed by `node_<id>` (a `const` line is counted
by its type keyword). -/
def declarationCount (text : String) (id : Int) : Nat :=
  (["float ", "vec2 ", "vec3 ", "vec4 ", "mat4 "].map
    (fun kw => countChars (kw ++ nodeName id).toList text.toList)).sum

/-! ## Declarations and uses in the generated text -/

/-- A piece of generated text: literal text, the name of a node where it is
declared, or the name of a node where it is used. -/
inductive Tok where
  | lit (s : String)
  | decl (id : Int)
  | use (id : Int)
  deriving DecidableEq, Repr

/-- The characters of a piece. -/
def Tok.chars : Tok → List Char
  | .lit s => s.toList
  | .decl id => (nodeName id).toList
  | .use id => (nodeName id).toList

/-- The characters of a sequence of pieces. -/
def tokChars : List Tok → List Char
  | [] => []
  | t :: rest => t.chars ++ tokChars rest

/-- The pieces of `rejectionComponent a b c` for the names of the ids `a` and
`b`. -/
def rejectionToks (a b : Int) (c : String) : List Tok :=
  [.use a, .lit ".", .lit c, .lit " - dot(", .use a, .lit ", ", .use b, .lit ")/dot(", .use b,
   .lit ", ", .use b, .lit ")*", .use b, .lit ".", .lit c]

/-- A node with the given id, type, input slots, counts and arity; its four
first values print as 2.000, 3.000, 4.000 and 5.000. -/
def exampleNode (id : Int) (type : FNodeType) (inputs : List Int)
    (inputsCount inputsLimit dataCount : Int) : FNode :=
  { id := id, type := type, inputs := inputs, inputsCount := inputsCount,
    inputsLimit := inputsLimit, dataCount := dataCount,
    data := ["2.000", "3.000", "4.000", "5.000"] }

/-- A constant or operator without inputs: id, type, input limit and arity. -/
def freshNode (id : Int) (type : FNodeType) (inputsLimit dataCount : Int) : FNode :=
  exampleNode id type [-1, -1, -1, -1] 0 inputsLimit dataCount

/-- Graph of the vertex sink fed by a `Matrix 4x4` node (id 2) and the fragment
sink fed by a `Value` node (id 3). -/
def matrixGraph : List FNode :=
  [exampleNode 0 FNODE_VERTEX [2, -1, -1, -1] 1 1 16,
   exampleNode 1 FNODE_FRAGMENT [3, -1, -1, -1] 1 1 1,
   freshNode 2 FNODE_MATRIX 0 16,
   freshNode 3 FNODE_VALUE 0 1]

/-- The vertex shader that `CompileShader` writes for `matrixGraph`. -/
def matrixVertexText : String :=
  vHeader ++ vIn ++ vOut ++ vUniforms ++ "// Constant values\n" ++ vMain
    ++ "\n    gl_Position = node_02;\n\x7d"

/-- Diamond: the `Value` node 2 feeds the `One Minus` node 3 and the `Add` node
4, node 3 feeds node 4 as well, and node 4 feeds both sinks. -/
def diamondGraph : List FNode :=
  [exampleNode 0 FNODE_VERTEX [4, -1, -1, -1] 1 1 1,
   exampleNode 1 FNODE_FRAGMENT [4, -1, -1, -1] 1 1 1,
   freshNode 2 FNODE_VALUE 0 1,
   exampleNode 3 FNODE_ONEMINUS [2, -1, -1, -1] 1 1 1,
   exampleNode 4 FNODE_ADD [2, 3, -1, -1] 2 4 1]

/-- The fragment shader that `CompileShader` writes for `diamondGraph`. -/
def diamondFragmentText : String :=
  fHeader ++ "// Input attributes\n" ++ fIn ++ "// Uniform attributes\n" ++ fUniforms
    ++ "// Output attributes\n" ++ fOut ++ "// Constant values\n"
    ++ "const float node_02 = 2.000;\n"
    ++ "const float node_02 = 2.000;\n"
    ++ fMain
    ++ "    float node_03 = (1 - node_02);\n"
    ++ "    float node_04 = node_02 + node_03;\n"
    ++ "\n    finalColor = vec4(node_04, node_04, node_04, 1.0);\n\x7d"

/-- A `Value` node (arity 1) with id 5. -/
def valueSource : FNode := freshNode 5 FNODE_VALUE 0 1

/-- A `Vector 2` node (arity 2) with id 6. -/
def vector2Source : FNode := freshNode 6 FNODE_VECTOR2 0 2

/-- A `Vector 3` node (arity 3) with id 7. -/
def vector3Source : FNode := freshNode 7 FNODE_VECTOR3 0 3

/-- A `Vector 4` node (arity 4) with id 8. -/
def vector4Source : FNode := freshNode 8 FNODE_VECTOR4 0 4

/-- The four constant nodes above, behind a destination node `d`. -/
def graphWith (d : FNode) : List FNode :=
  [d, valueSource, vector2Source, vector3Source, vector4Source]

/-- A `Cross Product` node (id 2) without inputs. -/
def freshCross : FNode := freshNode 2 FNODE_CROSSPRODUCT 2 0

/-- An `Append` node (id 2) without inputs. -/
def freshAppend : FNode := freshNode 2 FNODE_APPEND 4 0

/-- A `Desaturate` node (id 2) without inputs. -/
def freshDesaturate : FNode := freshNode 2 FNODE_DESATURATE 2 0

/-- A `Normalize` node (id 2) without inputs. -/
def freshNormalize : FNode := freshNode 2 FNODE_NORMALIZE 1 0

/-- The vertex sink as `CheckPreviousShader` creates it (line 256), taken with
one input slot and arity 0. -/
def freshVertexSink : FNode := freshNode 0 FNODE_VERTEX 1 0

/-- An `Add` node (id 2) whose first input is the `Vector 3` node 7. -/
def addWithVector3 : FNode := exampleNode 2 FNODE_ADD [7, -1, -1, -1] 1 4 3

/-- A `Dot Product` node (id 2) whose first input is the `Vector 3` node 7. -/
def dotWithVector3 : FNode := exampleNode 2 FNODE_DOTPRODUCT [7, -1, -1, -1] 1 2 1

/-- A frame in which the left button is pressed over every input shape. -/
def clickOnInputs : Mouse :=
  { leftPressed := true, rightPressed := false, altDown := false,
    overInput := fun _ => true, overOutput := fun _ => false }

/-- The line registry of the example: one line in progress, drawn from the
`Value` node 5. -/
def lineInProgress : FLine := { id := 0, from_ := 5, to_ := -1 }

/-- Editor state in which a line is being drawn from node 5 and the only other
node is a `Normalize` node that already holds its single input. -/
def drawingState : Editor :=
  { nodes := [valueSource, exampleNode 2 FNODE_NORMALIZE [7, -1, -1, -1] 1 1 3]
    lines := [lineInProgress]
    tempLine := some lineInProgress
    lineState := 1
    selectedNode := -1
    commentState := 0
    selectedComment := -1 }

/-- Editor state in which the line 1 is being drawn from the `Value` node 5 while
a committed line 0 already goes from node 5 to the `Add` node 2. -/
def replacingState : Editor :=
  { nodes := [valueSource, exampleNode 2 FNODE_ADD [5, -1, -1, -1] 1 4 1]
    lines := [{ id := 0, from_ := 5, to_ := 2 }, { id := 1, from_ := 5, to_ := -1 }]
    tempLine := some { id := 1, from_ := 5, to_ := -1 }
    lineState := 1
    selectedNode := -1
    commentState := 0
    selectedComment := -1 }

/-- Editor state in which a line is being drawn from the `Value` node 5 and the
only other node is a `Normalize` node without inputs. -/
def rejectingState : Editor :=
  { nodes := [valueSource, freshNormalize]
    lines := [lineInProgress]
    tempLine := some lineInProgress
    lineState := 1
    selectedNode := -1
    commentState := 0
    selectedComment := -1 }

/-- The graph right after start-up, the two sinks without inputs, and two `Add`
nodes (ids 2 and 3) created from the menu; no line yet. -/
def cycleStart : Editor :=
  { nodes := [freshVertexSink, freshNode 1 FNODE_FRAGMENT 1 0,
      freshNode 2 FNODE_ADD 4 0, freshNode 3 FNODE_ADD 4 0]
    lines := []
    tempLine := none
    lineState := 0
    selectedNode := -1
    commentState := 0
    selectedComment := -1 }

/-- A frame in which the left button is pressed over the output of `nodes[i]`. -/
def pressOutput (i : Nat) : Mouse :=
  { leftPressed := true, rightPressed := false, altDown := false,
    overInput := fun _ => false, overOutput := fun k => decide (k = i) }

/-- A frame in which the left button is pressed over the input of `nodes[i]`. -/
def pressInput (i : Nat) : Mouse :=
  { leftPressed := true, rightPressed := false, altDown := false,
    overInput := fun k => decide (k = i), overOutput := fun _ => false }

/-- Four frames: a line is drawn from node 2 to node 3, then one from node 3 to
node 2. -/
def cycleFrames : List Mouse := [pressOutput 2, pressInput 3, pressOutput 3, pressInput 2]

/-- The line registry after `cycleFrames`. -/
def cycleLines : List FLine :=
  [{ id := 0, from_ := 2, to_ := 3 }, { id := 1, from_ := 3, to_ := 2 }]

/-- Graph in which the uniform `MVP Matrix` (id 2, arity 16) feeds both sinks. -/
def mvpGraph : List FNode :=
  [exampleNode 0 FNODE_VERTEX [2, -1, -1, -1] 1 1 16,
   exampleNode 1 FNODE_FRAGMENT [2, -1, -1, -1] 1 1 16,
   freshNode 2 FNODE_MVP 0 16]

/-- The fragment shader that `CompileShader` writes for `mvpGraph`. -/
def mvpFragmentText : String :=
  fHeader ++ "// Input attributes\n" ++ fIn ++ "// Uniform attributes\n" ++ fUniforms
    ++ "// Output attributes\n" ++ fOut ++ "// Constant values\n"
    ++ fMain
    ++ "    mat4 node_02 = mvpMatrix;\n"

/-- The vertex shader that `CompileShader` writes for `mvpGraph`. -/
def mvpVertexText : String :=
  vHeader ++ vIn ++ vOut ++ vUniforms ++ "// Constant values\n" ++ vMain
    ++ "    mat4 node_02 = mvpMatrix;\n"
    ++ "\n    gl_Position = node_02;\n\x7d"

/-- Graph in which the `Add` node 10, of arity 1, has the `Value` node 100 as its
only input and feeds both sinks. -/
def prefixGraph : List FNode :=
  [exampleNode 0 FNODE_VERTEX [10, -1, -1, -1] 1 1 1,
   exampleNode 1 FNODE_FRAGMENT [10, -1, -1, -1] 1 1 1,
   exampleNode 10 FNODE_ADD [100, -1, -1, -1] 1 4 1,
   freshNode 100 FNODE_VALUE 0 1]

/-- The fragment shader that `CompileShader` writes for `prefixGraph`. -/
def prefixFragmentText : String :=
  fHeader ++ "// Input attributes\n" ++ fIn ++ "// Uniform attributes\n" ++ fUniforms
    ++ "// Output attributes\n" ++ fOut ++ "// Constant values\n"
    ++ "const float node_100 = 2.000;\n"
    ++ fMain
    ++ "\n    finalColor = vec4(node_10, node_10, node_10, 1.0);\n\x7d"

/-- Graph in which the `Pi` node 2 feeds both sinks. -/
def piGraph : List FNode :=
  [exampleNode 0 FNODE_VERTEX [2, -1, -1, -1] 1 1 1,
   exampleNode 1 FNODE_FRAGMENT [2, -1, -1, -1] 1 1 1,
   freshNode 2 FNODE_PI 0 1]

/-- The fragment shader that `CompileShader` writes for `piGraph` when `printf`
fetches the value `junk` for the missing argument. -/
def piFragmentText (junk : Int) : String :=
  fHeader ++ "// Input attributes\n" ++ fIn ++ "// Uniform attributes\n" ++ fUniforms
    ++ "// Output attributes\n" ++ fOut ++ "// Constant values\n"
    ++ "const float " ++ nodeName junk ++ " = 3.14159265358979323846;\n"
    ++ fMain
    ++ "\n    finalColor = vec4(node_02, node_02, node_02, 1.0);\n\x7d"

/-- The graph right after start-up: the two sinks, nothing linked. -/
def initialGraph : List FNode := [freshVertexSink, freshNode 1 FNODE_FRAGMENT 1 0]

/-- The passage through the data file of values that are whole numbers, such as
those of the example nodes: `%f` writes three more zeros than `%.3f` (`2.000000`
for `2.000`), and the number read back prints as before. -/
def wholeValues : ValueFormat :=
  { written := fun n => n.data.map (fun t => t ++ "000")
    reread := fun t => String.mk t.toList.dropLast.dropLast.dropLast }

/-- Line registry of `diamondGraph`. -/
def diamondLines : List FLine :=
  [{ id := 0, from_ := 2, to_ := 3 }, { id := 1, from_ := 2, to_ := 4 },
   { id := 2, from_ := 3, to_ := 4 }, { id := 3, from_ := 4, to_ := 0 },
   { id := 4, from_ := 4, to_ := 1 }]

/-- Two `Add` nodes (ids 2 and 3) linked to each other and to no sink. -/
def islandGraph : List FNode :=
  [freshVertexSink, freshNode 1 FNODE_FRAGMENT 1 0,
   freshNode 2 FNODE_ADD 4 0, exampleNode 3 FNODE_ADD [2, -1, -1, -1] 1 4 0]

/-- Line registry of `islandGraph`: one line, from node 2 to node 3. -/
def islandLines : List FLine := [{ id := 0, from_ := 2, to_ := 3 }]

/-- A frame in which no button is pressed and nothing is under the mouse. -/
def quietMouse : Mouse :=
  { leftPressed := false, rightPressed := false, altDown := false,
    overInput := fun _ => false, overOutput := fun _ => false }

/-- A frame in which no button is pressed or held and nothing is under the
mouse. -/
def quietFrame : Frame :=
  { mouse := quietMouse, leftDown := false, overShape := fun _ => false,
    overData := fun _ _ => false, overComment := fun _ => false,
    overCommentValue := fun _ => false, overHandle := fun _ _ => false,
    commentTouches := fun _ _ => false, target := (0, 0), delta := (0, 0), rectValid := false }

/-- A frame in which the right button is pressed while the shape of every node is
under the mouse. -/
def rightClickOnNodes : Frame :=
  { quietFrame with
    mouse := { quietMouse with rightPressed := true }
    overShape := fun _ => true }

/-- A frame in which the left button goes down over the first value field of
`nodes[2]`, which lies inside the shape of that node. -/
def pressValueField : Frame :=
  { quietFrame with
    mouse := { quietMouse with leftPressed := true }
    leftDown := true
    overShape := fun i => decide (i = 2)
    overData := fun i k => decide (i = 2) && decide (k = 0) }

/-- Graph in which a node of the given type (id 4, arity 3) has the `Vector 3`
nodes 2 and 3 as its two inputs and feeds both sinks. -/
def binaryVectorGraph (type : FNodeType) : List FNode :=
  [exampleNode 0 FNODE_VERTEX [4, -1, -1, -1] 1 1 3,
   exampleNode 1 FNODE_FRAGMENT [4, -1, -1, -1] 1 1 3,
   freshNode 2 FNODE_VECTOR3 0 3,
   freshNode 3 FNODE_VECTOR3 0 3,
   exampleNode 4 type [2, 3, -1, -1] 2 2 3]

/-- The statement of arity 3 with the projection constructor, as lines 1310-1315
format it for the node 4 with the inputs 2 and 3. -/
def projectionStatement : String :=
  "    vec3 node_04 = vec3(dot(node_02, node_03)/dot(node_03, node_03)*node_03.x, "
    ++ "dot(node_02, node_03)/dot(node_03, node_03)*node_03.y, "
    ++ "dot(node_02, node_03)/dot(node_03, node_03)*node_03.z);\n"

/-- The statement of arity 3 with the rejection constructor, as lines 1323-1328
format it for the node 4 with the inputs 2 and 3. -/
def rejectionStatement : String :=
  "    vec3 node_04 = vec3(node_02.x - dot(node_02, node_03)/dot(node_03, node_03)*node_03.x, "
    ++ "node_02.y - dot(node_02, node_03)/dot(node_03, node_03)*node_03.y, "
    ++ "node_02.z - dot(node_02, node_03)/dot(node_03, node_03)*node_03.z);\n"

/-- The fragment shader that `CompileShader` writes for `binaryVectorGraph` when
the statement of the node 4 is `statement`. -/
def binaryVectorFragmentText (statement : String) : String :=
  fHeader ++ "// Input attributes\n" ++ fIn ++ "// Uniform attributes\n" ++ fUniforms
    ++ "// Output attributes\n" ++ fOut ++ "// Constant values\n"
    ++ "const vec3 node_02 = vec3(2.000, 3.000, 4.000);\n"
    ++ "const vec3 node_03 = vec3(2.000, 3.000, 4.000);\n"
    ++ fMain
    ++ statement
    ++ "\n    finalColor = vec4(node_04.xyz, 1.0);\n\x7d"

/-- At most one of the four pointer gestures of the editor is active: at least
three of the sentinels `selectedNode`, `lineState`, `commentState` and
`selectedComment` are idle. -/
def atMostOnePointer (e : Editor) : Prop :=
  (e.lineState = 0 ∧ e.commentState = 0 ∧ e.selectedComment = -1)
    ∨ (e.selectedNode = -1 ∧ e.commentState = 0 ∧ e.selectedComment = -1)
    ∨ (e.selectedNode = -1 ∧ e.lineState = 0 ∧ e.selectedComment = -1)
    ∨ (e.selectedNode = -1 ∧ e.lineState = 0 ∧ e.commentState = 0)

/-- The session on the diamond graph in which the first value of the `Value`
node 2 is being edited and no other gesture is active. -/
def editingSession : Session :=
  { idleSession diamondGraph diamondLines [] with editNode := 2, editNodeType := 0 }

/-- The node registry of a run of `UpdateNodesLink`, if the run returns. -/
def nodesOf (r : Except Err Editor) : Option (List FNode) :=
  match r with
  | .ok st => some st.nodes
  | .error _ => none

/-- The graph right after start-up with a `Value` node (id 2) and a `Power` node
of arity 1 (id 3, two input slots) created from the menu; no line yet. -/
def powerStart : Editor :=
  { nodes := [freshVertexSink, freshNode 1 FNODE_FRAGMENT 1 0,
      freshNode 2 FNODE_VALUE 0 1, freshNode 3 FNODE_POWER 2 1]
    lines := []
    tempLine := none
    lineState := 0
    selectedNode := -1
    commentState := 0
    selectedComment := -1 }

/-- Six frames: a line is drawn from the `Value` node to the `Power` node, then
one from the `Power` node to each sink. -/
def powerFrames : List Mouse :=
  [pressOutput 2, pressInput 3, pressOutput 3, pressInput 0, pressOutput 3, pressInput 1]

/-- The node registry after `powerFrames`: the `Power` node has one input, the
`Value` node 2, and feeds both sinks. -/
def powerGraph : List FNode :=
  [exampleNode 0 FNODE_VERTEX [3, -1, -1, -1] 1 1 0,
   exampleNode 1 FNODE_FRAGMENT [3, -1, -1, -1] 1 1 0,
   freshNode 2 FNODE_VALUE 0 1,
   exampleNode 3 FNODE_POWER [2, -1, -1, -1] 1 2 1]

/-- The fragment shader that `CompileShader` writes for `powerGraph`. -/
def powerFragmentText : String :=
  fHeader ++ "// Input attributes\n" ++ fIn ++ "// Uniform attributes\n" ++ fUniforms
    ++ "// Output attributes\n" ++ fOut ++ "// Constant values\n"
    ++ "const float node_02 = 2.000;\n"
    ++ fMain
    ++ "    float node_03 = pow(node_02, node_-1);\n"
    ++ "\n    finalColor = vec4(node_03, node_03, node_03, 1.0);\n\x7d"

/-- The `Add` node 10 of `prefixGraph`. -/
def tenNode : FNode := exampleNode 10 FNODE_ADD [100, -1, -1, -1] 1 4 1

/-- The two files when the fragment file holds the constant of the node 100 and
nothing else. -/
def hundredDeclared : Files :=
  { vertex := none, fragment := some "const float node_100 = 2.000;\n" }

/-- Graph in which the `Abs` node 3 is used twice: it feeds the `One Minus` node 4
and the `Add` node 5, node 4 feeds node 5 as well, and node 5 feeds both sinks. -/
def sharedGraph : List FNode :=
  [exampleNode 0 FNODE_VERTEX [5, -1, -1, -1] 1 1 1,
   exampleNode 1 FNODE_FRAGMENT [5, -1, -1, -1] 1 1 1,
   freshNode 2 FNODE_VALUE 0 1,
   exampleNode 3 FNODE_ABS [2, -1, -1, -1] 1 1 1,
   exampleNode 4 FNODE_ONEMINUS [3, -1, -1, -1] 1 1 1,
   exampleNode 5 FNODE_ADD [3, 4, -1, -1] 2 4 1]

/-- The `Abs` node 3 of `sharedGraph`. -/
def absNode : FNode := exampleNode 3 FNODE_ABS [2, -1, -1, -1] 1 1 1

/-- The vertex shader that `CompileShader` writes for `sharedGraph`. -/
def sharedVertexText : String :=
  vHeader ++ vIn ++ vOut ++ vUniforms ++ "// Constant values\n"
    ++ "const float node_02 = 2.000;\n"
    ++ "const float node_02 = 2.000;\n"
    ++ vMain
    ++ "    float node_03 = abs(node_02);\n"
    ++ "    float node_03 = abs(node_02);\n"
    ++ "    float node_04 = (1 - node_03);\n"
    ++ "    float node_05 = node_03 + node_04;\n"
    ++ "\n    gl_Position = vec4(node_05, node_05, node_05, 1.0);\n\x7d"

/-- The fragment shader that `CompileShader` writes for `sharedGraph`. -/
def sharedFragmentText : String :=
  fHeader ++ "// Input attributes\n" ++ fIn ++ "// Uniform attributes\n" ++ fUniforms
    ++ "// Output attributes\n" ++ fOut ++ "// Constant values\n"
    ++ "const float node_02 = 2.000;\n"
    ++ "const float node_02 = 2.000;\n"
    ++ fMain
    ++ "    float node_03 = abs(node_02);\n"
    ++ "    float node_04 = (1 - node_03);\n"
    ++ "    float node_05 = node_03 + node_04;\n"
    ++ "\n    finalColor = vec4(node_05, node_05, node_05, 1.0);\n\x7d"

/-- Graph with six nodes: the `Value` node 5 feeds the `Add` nodes 2, 3 and 4,
node 2 feeds nodes 3 and 4, node 3 feeds node 4, and node 4 feeds both sinks. -/
def surplusNodes : List FNode :=
  [exampleNode 0 FNODE_VERTEX [4, -1, -1, -1] 1 1 1,
   exampleNode 1 FNODE_FRAGMENT [4, -1, -1, -1] 1 1 1,
   exampleNode 2 FNODE_ADD [5, -1, -1, -1] 1 4 1,
   exampleNode 3 FNODE_ADD [5, 2, -1, -1] 2 4 1,
   exampleNode 4 FNODE_ADD [5, 2, 3, -1] 3 4 1,
   freshNode 5 FNODE_VALUE 0 1]

/-- Line registry of `surplusNodes`: eight lines, in the order in which they were
drawn. -/
def surplusLines : List FLine :=
  [{ id := 0, from_ := 5, to_ := 2 }, { id := 1, from_ := 5, to_ := 3 },
   { id := 2, from_ := 5, to_ := 4 }, { id := 3, from_ := 2, to_ := 3 },
   { id := 4, from_ := 2, to_ := 4 }, { id := 5, from_ := 3, to_ := 4 },
   { id := 6, from_ := 4, to_ := 0 }, { id := 7, from_ := 4, to_ := 1 }]

/-- Graph in which the `Value` node 2 feeds the fragment sink only. -/
def cutNodes : List FNode :=
  [freshVertexSink,
   exampleNode 1 FNODE_FRAGMENT [2, -1, -1, -1] 1 1 1,
   freshNode 2 FNODE_VALUE 0 1]

/-- Line registry of `cutNodes` after the line 0, from node 2 to the vertex sink,
was cut: the line 1 is the only entry. -/
def cutLinesRegistry : List FLine := [{ id := 1, from_ := 2, to_ := 1 }]

/-- The input relation of a node registry, on the indices of the registry:
`nodes[k]` is the node that `GetNodeIndex` finds for one of the connected slots
`inputs[0..inputsCount)` of `nodes[j]`. -/
def inputRel (nodes : List FNode) (k j : Fin nodes.length) : Prop :=
  ∃ i, i < (nodes.get j).inputsCount.toNat
    ∧ GetNodeIndex nodes ((nodes.get j).input i) = some k.val

instance inputRelDecidable (nodes : List FNode) : DecidableRel (inputRel nodes) := by
  intro k j
  unfold inputRel
  infer_instance

/-- Every id held in a connected slot of a node of the registry is the id of a
node of the registry. -/
def inputsResolve (nodes : List FNode) : Prop :=
  ∀ j : Fin nodes.length, ∀ i, i < (nodes.get j).inputsCount.toNat →
    (GetNodeIndex nodes ((nodes.get j).input i)).isSome = true

/-- No chain of inputs leads from a node of the registry back to itself. -/
def inputsAcyclic (nodes : List FNode) : Prop :=
  ∀ j : Fin nodes.length, ¬ Relation.TransGen (inputRel nodes) j j

instance inputsResolveDecidable (nodes : List FNode) : Decidable (inputsResolve nodes) := by
  unfold inputsResolve
  infer_instance

/-- A ranking of the nodes of `diamondGraph` by their index, the two sinks
above all other nodes. -/
def diamondRank (j : Fin diamondGraph.length) : Nat :=
  if j.val < 2 then 5 else j.val

/-- A successful dereference comes from an index that is not `-1`. -/
theorem nodeAt_ok_some {nodes : List FNode} {o : Option Nat} {f : FNode}
    (h : nodeAt nodes o = .ok f) : ∃ k, o = some k := by
  cases o with
  | none => simp [nodeAt] at h
  | some k => exact ⟨k, rfl⟩

/-- When the first input of the destination resolves to the node `f`, the check
of lines 533-539 keeps `b` and adds the comparison with the arity of `f` once the
destination has an input. -/
theorem firstInputCheck_resolved (nodes : List FNode) (d s f : FNode) (b : Bool)
    (hfirst : 0 < d.inputsCount → nodeAt nodes (GetNodeIndex nodes (d.input 0)) = .ok f) :
    firstInputCheck nodes d s b
      = .ok (b && decide (0 < d.inputsCount → s.dataCount = f.dataCount)) := by
  unfold firstInputCheck
  by_cases hb : b = true
  · by_cases hc : 0 < d.inputsCount
    · have h := hfirst hc
      obtain ⟨k, hk⟩ := nodeAt_ok_some h
      rw [hk] at h
      simp [hb, hc, hk, h, bind, Except.bind, pure, Except.pure]
    · simp [hb, hc, pure, Except.pure]
  · simp [hb, pure, Except.pure]

/-! ## Code generator: declarations -/

/-- Claim C1, evaluated on the graph in which a `Matrix 4x4` node feeds the vertex
sink: `CompileShader` returns, the vertex shader it writes is `matrixVertexText`,
that text uses `node_02` in the final assignment, and it declares `node_02`
nowhere. -/
theorem matrix_input_never_declared :
    vertexText (CompileShader matrixGraph 0 4) = some matrixVertexText
      ∧ mentionsNode matrixVertexText 2 = true
      ∧ declarationCount matrixVertexText 2 = 0 := by
  refine ⟨?_, ?_, ?_⟩
  · decide!
  · decide!
  · decide!

/-- Claim C2, evaluated on the diamond graph: `CompileShader` returns, the
fragment shader it writes is `diamondFragmentText`, and the constants section of
that text declares `node_02` twice. -/
theorem diamond_constant_declared_twice :
    fragmentText (CompileShader diamondGraph 0 4) = some diamondFragmentText
      ∧ declarationCount diamondFragmentText 2 = 2 := by
  refine ⟨?_, ?_⟩
  · decide!
  · decide!

/-! ## Link validator: arity rules -/

/-- Claim C3, evaluated on a `Cross Product` node without inputs and a source of
arity 2: the candidate passes the slot gate and the validator accepts it,
although the arity of the source is not 3. -/
theorem crossproduct_first_slot_takes_vector2 :
    slotGate freshCross vector2Source.id = true
      ∧ linkAccepted (graphWith freshCross) freshCross vector2Source.id = .ok true
      ∧ vector2Source.dataCount ≠ 3 := by
  refine ⟨?_, ?_, ?_⟩
  · decide
  · rfl
  · decide

/-- Claim C4: with a source that resolves to the node `s`, the validator accepts
an edge into a `Normalize` node iff `1 < S <= 4`, into a `Step` node iff `S == 1`,
into a `Power` node with exactly one input iff `S == 1`, and into a
`Multiply Matrix` or `Transpose` node iff `S == 16`, where `S` is the arity of
`s`; the input count of the destination plays no part in the first, second and
fourth rule. -/
theorem fixed_arity_rules (nodes : List FNode) (d s : FNode) (from_ : Int)
    (hsrc : nodeAt nodes (GetNodeIndex nodes from_) = .ok s) :
    (d.type = FNODE_NORMALIZE →
        linkAccepted nodes d from_ = .ok (decide (1 < s.dataCount ∧ s.dataCount ≤ 4)))
    ∧ (d.type = FNODE_STEP → linkAccepted nodes d from_ = .ok (decide (s.dataCount = 1)))
    ∧ (d.type = FNODE_POWER → d.inputsCount = 1 →
        linkAccepted nodes d from_ = .ok (decide (s.dataCount = 1)))
    ∧ (d.type = FNODE_MULTIPLYMATRIX ∨ d.type = FNODE_TRANSPOSE →
        linkAccepted nodes d from_ = .ok (decide (s.dataCount = 16))) := by
  refine ⟨?_, ?_, ?_, ?_⟩
  · intro h
    simp [linkAccepted, valuesCheck, firstSlotFree, h, hsrc, bind, Except.bind, pure, Except.pure]
  · intro h
    simp [linkAccepted, valuesCheck, firstSlotFree, h, hsrc, bind, Except.bind, pure, Except.pure]
  · intro h h1
    simp [linkAccepted, valuesCheck, firstSlotFree, h, h1, hsrc, bind, Except.bind, pure,
      Except.pure]
  · intro h
    rcases h with h | h <;>
    simp [linkAccepted, valuesCheck, firstSlotFree, h, hsrc, bind, Except.bind, pure, Except.pure,
      FNodeType.rank, FNodeType.toCtorIdx]

/-- The rule of C4 at a `Normalize` node without inputs: the `Vector 3` source
resolves and is accepted, the `Value` source resolves and is rejected. -/
theorem fixed_arity_rules_witness :
    nodeAt (graphWith freshNormalize) (GetNodeIndex (graphWith freshNormalize) 7)
        = .ok vector3Source
      ∧ linkAccepted (graphWith freshNormalize) freshNormalize 7 = .ok true
      ∧ linkAccepted (graphWith freshNormalize) freshNormalize 5 = .ok false :=
  ⟨rfl,
    (fixed_arity_rules (graphWith freshNormalize) freshNormalize vector3Source 7 rfl).1 rfl,
    (fixed_arity_rules (graphWith freshNormalize) freshNormalize valueSource 5 rfl).1 rfl⟩

/-- Claim C5, evaluated on an `Append` node without inputs and a source of arity
3: the candidate passes the slot gate and the validator accepts it, although the
arity of the source is not 1. -/
theorem append_first_slot_takes_vector3 :
    slotGate freshAppend vector3Source.id = true
      ∧ linkAccepted (graphWith freshAppend) freshAppend vector3Source.id = .ok true
      ∧ ¬ (freshAppend.dataCount + vector3Source.dataCount ≤ 4 ∧ vector3Source.dataCount = 1) := by
  refine ⟨?_, ?_, ?_⟩
  · decide
  · rfl
  · decide

/-- Claim C6, evaluated on a `Desaturate` node without inputs and a source of
arity 4: the candidate passes the slot gate and the validator accepts it,
although the arity of the source is not below 4. -/
theorem desaturate_first_slot_takes_vector4 :
    slotGate freshDesaturate vector4Source.id = true
      ∧ freshDesaturate.inputsCount = 0
      ∧ linkAccepted (graphWith freshDesaturate) freshDesaturate vector4Source.id = .ok true
      ∧ ¬ (vector4Source.dataCount < 4) := by
  refine ⟨?_, ?_, ?_, ?_⟩
  · decide
  · decide
  · rfl
  · decide

/-- Counterexample to C7: an `Add` node whose only input has arity 3 passes the
slot gate for a source of arity 1, and the validator accepts the edge. -/
theorem add_accepts_mixed_arity :
    slotGate addWithVector3 valueSource.id = true
      ∧ 0 < addWithVector3.inputsCount
      ∧ nodeAt (graphWith addWithVector3)
          (GetNodeIndex (graphWith addWithVector3) (addWithVector3.input 0)) = .ok vector3Source
      ∧ linkAccepted (graphWith addWithVector3) addWithVector3 valueSource.id = .ok true
      ∧ valueSource.dataCount ≠ vector3Source.dataCount := by
  refine ⟨?_, ?_, ?_, ?_, ?_⟩
  · decide
  · decide
  · rfl
  · rfl
  · decide

/-- Claim C7 as amended: for a destination of type `Add`, `Subtract`, `Multiply`
or `Divide` the validator sets no arity condition; every candidate is accepted,
whatever the source and the inputs already connected. -/
theorem arithmetic_no_arity_rule (nodes : List FNode) (d : FNode) (from_ : Int)
    (htype : d.type = FNODE_ADD ∨ d.type = FNODE_SUBTRACT ∨ d.type = FNODE_MULTIPLY
      ∨ d.type = FNODE_DIVIDE) :
    linkAccepted nodes d from_ = .ok true := by
  rcases htype with h | h | h | h <;>
  simp [linkAccepted, valuesCheck, h, bind, Except.bind, pure, Except.pure,
      FNodeType.rank, FNodeType.toCtorIdx]

/-- The amended rule of C7 at an `Add` node that holds a `Vector 3` input, for a
source of arity 4. -/
theorem arithmetic_no_arity_rule_witness :
    addWithVector3.type = FNODE_ADD
      ∧ linkAccepted (graphWith addWithVector3) addWithVector3 vector4Source.id = .ok true :=
  ⟨rfl, arithmetic_no_arity_rule (graphWith addWithVector3) addWithVector3 vector4Source.id
    (Or.inl rfl)⟩

/-- Claim C8: with a source that resolves to `s` and, once the destination has an
input, a first input that resolves to `f`, the validator accepts an edge into a
`Dot Product`, `Length`, `Projection`, `Rejection` or `Half Direction` node iff
`1 < S <= 4` and, when the destination has an input, `S` is the arity of `f`;
for a `Distance` node the bound is `S <= 4`. -/
theorem vector_operand_rule (nodes : List FNode) (d s f : FNode) (from_ : Int)
    (hsrc : nodeAt nodes (GetNodeIndex nodes from_) = .ok s)
    (hfirst : 0 < d.inputsCount → nodeAt nodes (GetNodeIndex nodes (d.input 0)) = .ok f) :
    (d.type = FNODE_DOTPRODUCT ∨ d.type = FNODE_LENGTH ∨ d.type = FNODE_PROJECTION
        ∨ d.type = FNODE_REJECTION ∨ d.type = FNODE_HALFDIRECTION →
      linkAccepted nodes d from_
        = .ok (decide ((1 < s.dataCount ∧ s.dataCount ≤ 4)
            ∧ (0 < d.inputsCount → s.dataCount = f.dataCount))))
    ∧ (d.type = FNODE_DISTANCE →
      linkAccepted nodes d from_
        = .ok (decide (s.dataCount ≤ 4 ∧ (0 < d.inputsCount → s.dataCount = f.dataCount)))) := by
  have hf := fun b => firstInputCheck_resolved nodes d s f b hfirst
  constructor
  · intro h
    rcases h with h | h | h | h | h <;>
    simp [linkAccepted, valuesCheck, firstSlotFree, h, hsrc, hf, bind, Except.bind, pure,
      Except.pure, FNodeType.rank, FNodeType.toCtorIdx]
  · intro h
    simp [linkAccepted, valuesCheck, firstSlotFree, h, hsrc, hf, bind, Except.bind, pure,
      Except.pure, FNodeType.rank, FNodeType.toCtorIdx]

/-- The rule of C8 at a `Dot Product` node that holds a `Vector 3` input: both
lookups resolve, the `Vector 2` node 6 is rejected and the `Vector 3` node 7 is
accepted. -/
theorem vector_operand_rule_witness :
    nodeAt (graphWith dotWithVector3) (GetNodeIndex (graphWith dotWithVector3) 6)
        = .ok vector2Source
      ∧ nodeAt (graphWith dotWithVector3)
          (GetNodeIndex (graphWith dotWithVector3) (dotWithVector3.input 0)) = .ok vector3Source
      ∧ linkAccepted (graphWith dotWithVector3) dotWithVector3 6 = .ok false
      ∧ linkAccepted (graphWith dotWithVector3) dotWithVector3 7 = .ok true :=
  ⟨rfl, rfl,
    (vector_operand_rule (graphWith dotWithVector3) dotWithVector3 vector2Source vector3Source 6
      rfl (fun _ => rfl)).1 (Or.inl rfl),
    (vector_operand_rule (graphWith dotWithVector3) dotWithVector3 vector3Source vector3Source 7
      rfl (fun _ => rfl)).1 (Or.inl rfl)⟩

/-- Counterexample to C9: the vertex sink without inputs and with arity 0 passes
the slot gate for a source of arity 4, and the validator accepts the edge,
although 4 is above the arity of the sink. -/
theorem fresh_sink_accepts_wider_source :
    slotGate freshVertexSink vector4Source.id = true
      ∧ linkAccepted (graphWith freshVertexSink) freshVertexSink vector4Source.id = .ok true
      ∧ ¬ (vector4Source.dataCount ≤ freshVertexSink.dataCount) := by
  refine ⟨?_, ?_, ?_⟩
  · decide
  · rfl
  · decide

/-- Claim C9 as amended: with a source that resolves to `s`, the validator
accepts an edge into a `VERTEX` or `FRAGMENT` sink iff the sink has no input yet
or the arity of `s` is at most the current arity of the sink. -/
theorem sink_rule (nodes : List FNode) (d s : FNode) (from_ : Int)
    (htype : d.type = FNODE_VERTEX ∨ d.type = FNODE_FRAGMENT)
    (hsrc : nodeAt nodes (GetNodeIndex nodes from_) = .ok s) :
    linkAccepted nodes d from_
      = .ok (decide (d.inputsCount = 0 ∨ s.dataCount ≤ d.dataCount)) := by
  rcases htype with h | h <;>
  simp [linkAccepted, valuesCheck, firstSlotFree, h, hsrc, bind, Except.bind, pure, Except.pure,
      FNodeType.rank, FNodeType.toCtorIdx]

/-- The amended rule of C9 at a fragment sink that holds an input and has arity
3: the `Vector 3` source is accepted and the `Vector 4` source is rejected. -/
theorem sink_rule_witness :
    linkAccepted (graphWith (exampleNode 1 FNODE_FRAGMENT [6, -1, -1, -1] 1 2 3))
        (exampleNode 1 FNODE_FRAGMENT [6, -1, -1, -1] 1 2 3) 7 = .ok true
      ∧ linkAccepted (graphWith (exampleNode 1 FNODE_FRAGMENT [6, -1, -1, -1] 1 2 3))
        (exampleNode 1 FNODE_FRAGMENT [6, -1, -1, -1] 1 2 3) 8 = .ok false :=
  ⟨sink_rule (graphWith (exampleNode 1 FNODE_FRAGMENT [6, -1, -1, -1] 1 2 3))
      (exampleNode 1 FNODE_FRAGMENT [6, -1, -1, -1] 1 2 3) vector3Source 7 (Or.inr rfl) rfl,
    sink_rule (graphWith (exampleNode 1 FNODE_FRAGMENT [6, -1, -1, -1] 1 2 3))
      (exampleNode 1 FNODE_FRAGMENT [6, -1, -1, -1] 1 2 3) vector4Source 8 (Or.inr rfl) rfl⟩

/-! ## Link gesture: the slot gate -/

/-- Claim C10: in the loop of `UpdateNodesLink`, a candidate that is the source
of the line itself or whose `inputsCount` is not below its `inputsLimit` is
skipped with the state untouched; when every candidate is of that kind the loop
returns the state it was given; and whenever the loop returns, the state is
either the given one or the commit of an edge into a node that is under the
mouse, is not the source, has `inputsCount < inputsLimit` and was accepted. -/
theorem linkLoop_slot_gate (CalculateValues : List FNode → List FLine → List FNode) (m : Mouse)
    (st : Editor) (t : FLine) (cands : List (Nat × FNode)) :
    (∀ i d rest, (d.id = t.from_ ∨ ¬ d.inputsCount < d.inputsLimit) →
        linkLoop CalculateValues m st t ((i, d) :: rest) = linkLoop CalculateValues m st t rest)
    ∧ ((∀ p ∈ cands, p.2.id = t.from_ ∨ ¬ p.2.inputsCount < p.2.inputsLimit) →
        linkLoop CalculateValues m st t cands = .ok st)
    ∧ (∀ st', linkLoop CalculateValues m st t cands = .ok st' →
        st' = st ∨ ∃ i d, (i, d) ∈ cands ∧ m.overInput i = true ∧ d.id ≠ t.from_
          ∧ d.inputsCount < d.inputsLimit ∧ linkAccepted st.nodes d t.from_ = .ok true
          ∧ st' = commitLink CalculateValues st d t) := by
  have hskip : ∀ i d rest, (d.id = t.from_ ∨ ¬ d.inputsCount < d.inputsLimit) →
      linkLoop CalculateValues m st t ((i, d) :: rest) = linkLoop CalculateValues m st t rest := by
    intro i d rest h
    have hg : ¬ (m.overInput i = true ∧ d.id ≠ t.from_ ∧ d.inputsCount < d.inputsLimit) := by
      rintro ⟨_, h1, h2⟩
      rcases h with h | h
      · exact h1 h
      · exact h h2
    rw [linkLoop, if_neg hg]
  refine ⟨hskip, ?_, ?_⟩
  · intro hall
    induction cands with
    | nil => rfl
    | cons p rest ih =>
      obtain ⟨i, d⟩ := p
      rw [hskip i d rest (hall (i, d) (List.mem_cons_self _ _))]
      exact ih (fun q hq => hall q (List.mem_cons_of_mem _ hq))
  · induction cands with
    | nil =>
      intro st' h
      left
      simp [linkLoop, pure, Except.pure] at h
      exact h.symm
    | cons p rest ih =>
      obtain ⟨i, d⟩ := p
      intro st' h
      by_cases hg : m.overInput i = true ∧ d.id ≠ t.from_ ∧ d.inputsCount < d.inputsLimit
      · rw [linkLoop, if_pos hg] at h
        cases hacc : linkAccepted st.nodes d t.from_ with
        | error e => simp [hacc, bind, Except.bind] at h
        | ok b =>
          cases b with
          | true =>
            simp [hacc, bind, Except.bind, pure, Except.pure] at h
            right
            exact ⟨i, d, List.mem_cons_self _ _, hg.1, hg.2.1, hg.2.2, hacc, h.symm⟩
          | false =>
            simp only [hacc, bind, Except.bind] at h
            cases hn : nodeAt st.nodes (GetNodeIndex st.nodes t.from_) with
            | error e => simp [hn] at h
            | ok s =>
              simp [hn] at h
              rcases ih st' h with h1 | ⟨j, e, hm, h2⟩
              · left; exact h1
              · right; exact ⟨j, e, List.mem_cons_of_mem _ hm, h2⟩
      · rw [linkLoop, if_neg hg] at h
        rcases ih st' h with h1 | ⟨j, e, hm, h2⟩
        · left; exact h1
        · right; exact ⟨j, e, List.mem_cons_of_mem _ hm, h2⟩

/-- The gate of C10 in a state where the mouse is over the source itself and over
a `Normalize` node that is full: every candidate fails the gate, and the click
leaves the state as it was. -/
theorem linkLoop_slot_gate_witness :
    (∀ p ∈ drawingState.nodes.enum,
        p.2.id = lineInProgress.from_ ∨ ¬ p.2.inputsCount < p.2.inputsLimit)
      ∧ linkLoop (fun nodes _ => nodes) clickOnInputs drawingState lineInProgress
          drawingState.nodes.enum = .ok drawingState :=
  ⟨by decide,
    (linkLoop_slot_gate (fun nodes _ => nodes) clickOnInputs drawingState lineInProgress
      drawingState.nodes.enum).2.1 (by decide)⟩

/-! ## Line registry: replace on accept -/

/-- In a registry with distinct ids, a line is determined by its id. -/
theorem line_eq_of_id_eq {lines : List FLine} (hids : (lines.map (fun l => l.id)).Nodup)
    {x y : FLine} (hx : x ∈ lines) (hy : y ∈ lines) (h : x.id = y.id) : x = y :=
  List.inj_on_of_nodup_map hids hx hy h

/-- With distinct ids, destroying the first line that satisfies `p` by its id is
erasing the first line that satisfies `p`. -/
theorem eraseP_id_of_find (p : FLine → Bool) :
    ∀ (lines : List FLine) (l : FLine), (lines.map (fun l => l.id)).Nodup →
      lines.find? p = some l → DestroyNodeLine lines l = lines.eraseP p
  | [], l, _, h => by simp at h
  | x :: xs, l, hids, h => by
    unfold DestroyNodeLine
    by_cases hp : p x = true
    · have hl : x = l := by simpa [List.find?, hp] using h
      subst hl
      simp [List.eraseP_cons, hp]
    · have hfind : xs.find? p = some l := by simpa [List.find?, hp] using h
      have hmem : l ∈ xs := List.mem_of_find?_eq_some hfind
      have hcons : (x.id :: xs.map (fun l => l.id)).Nodup := by simpa using hids
      have hne : x.id ≠ l.id := by
        intro he
        exact (List.nodup_cons.mp hcons).1 (by rw [he]; exact List.mem_map_of_mem _ hmem)
      have hids' : (xs.map (fun l => l.id)).Nodup := (List.nodup_cons.mp hcons).2
      have ih := eraseP_id_of_find p xs l hids' hfind
      unfold DestroyNodeLine at ih
      simp [List.eraseP_cons, hp, hne, ih]

/-- Erasing a line that the filter drops does not change the filtered list. -/
theorem filter_eraseP_of_not (q c : FLine → Bool) :
    ∀ (lines : List FLine), (∀ x ∈ lines, q x = true → c x = false) →
      (lines.eraseP q).filter c = lines.filter c
  | [], _ => rfl
  | x :: xs, h => by
    by_cases hq : q x = true
    · have hc : c x = false := h x (List.mem_cons_self _ _) hq
      simp [List.eraseP_cons, hq, List.filter_cons, hc]
    · have ih := filter_eraseP_of_not q c xs (fun y hy => h y (List.mem_cons_of_mem _ hy))
      simp [List.eraseP_cons, hq, List.filter_cons, ih]

/-- Erasing the first line that satisfies `p`, where `p` implies the filter,
commutes with the filter. -/
theorem filter_eraseP_comm (p c : FLine → Bool) (hpc : ∀ x, p x = true → c x = true) :
    ∀ (lines : List FLine), (lines.eraseP p).filter c = (lines.filter c).eraseP p
  | [] => rfl
  | x :: xs => by
    by_cases hp : p x = true
    · simp [List.eraseP_cons, hp, List.filter_cons, hpc x hp]
    · have ih := filter_eraseP_comm p c hpc xs
      by_cases hc : c x = true
      · simp [List.eraseP_cons, hp, List.filter_cons, hc, ih]
      · simp [List.eraseP_cons, hp, List.filter_cons, hc, ih]

/-- After the first line that satisfies `p` is erased, the lines that satisfy `p`
are the former ones without the first. -/
theorem filter_eraseP_self (p : FLine → Bool) :
    ∀ (lines : List FLine), (lines.eraseP p).filter p = (lines.filter p).tail
  | [] => rfl
  | x :: xs => by
    by_cases hp : p x = true
    · simp [List.eraseP_cons, hp, List.filter_cons]
    · have ih := filter_eraseP_self p xs
      simp [List.eraseP_cons, hp, List.filter_cons, ih]

/-- Erasing the first line that satisfies `p` keeps the lines that do not. -/
theorem filter_not_eraseP_self (p : FLine → Bool) :
    ∀ (lines : List FLine), (lines.eraseP p).filter (fun l => !p l) = lines.filter (fun l => !p l)
  | [] => rfl
  | x :: xs => by
    by_cases hp : p x = true
    · simp [List.eraseP_cons, hp, List.filter_cons]
    · have ih := filter_not_eraseP_self p xs
      simp [List.eraseP_cons, hp, List.filter_cons, ih]

/-- The committed lines after a commit: the former ones without the first line
that joins the same two nodes, followed by the new line. -/
theorem committedLines_commitLink (CalculateValues : List FNode → List FLine → List FNode)
    (st : Editor) (d : FNode) (t : FLine)
    (hids : (st.lines.map (fun l => l.id)).Nodup) (ht : t ∈ st.lines) (hto : t.to_ = -1)
    (hd : d.id ≠ -1) :
    ∃ id, committedLines (commitLink CalculateValues st d t).lines
      = (committedLines st.lines).eraseP (joins t.from_ d.id)
          ++ [{ id := id, from_ := t.from_, to_ := d.id }] := by
  have hP : (fun l : FLine => decide (l.to_ = d.id) && decide (l.from_ = t.from_))
      = joins t.from_ d.id := by
    funext l
    simp [joins, Bool.and_comm]
  have h1 : (match st.lines.find? (fun l => decide (l.to_ = d.id) && decide (l.from_ = t.from_)) with
      | some l => DestroyNodeLine st.lines l
      | none => st.lines) = st.lines.eraseP (joins t.from_ d.id) := by
    rw [hP]
    cases hfind : st.lines.find? (joins t.from_ d.id) with
    | none =>
      simp only []
      symm
      apply List.eraseP_of_forall_not
      intro a ha
      have := List.find?_eq_none.mp hfind a ha
      simpa using this
    | some l =>
      simp only []
      exact eraseP_id_of_find _ _ _ hids hfind
  have hsub : ∀ x ∈ st.lines.eraseP (joins t.from_ d.id), x ∈ st.lines :=
    fun x hx => List.mem_of_mem_eraseP hx
  have h2 : committedLines (DestroyNodeLine (st.lines.eraseP (joins t.from_ d.id)) t)
      = committedLines (st.lines.eraseP (joins t.from_ d.id)) := by
    unfold committedLines DestroyNodeLine
    apply filter_eraseP_of_not
    intro x hx hq
    have hxt : x = t := line_eq_of_id_eq hids (hsub x hx) ht (by simpa using hq)
    subst hxt
    simp [FLine.committed, hto]
  have h3 : committedLines (st.lines.eraseP (joins t.from_ d.id))
      = (committedLines st.lines).eraseP (joins t.from_ d.id) := by
    unfold committedLines
    apply filter_eraseP_comm
    intro x hx
    simp only [joins, Bool.and_eq_true, decide_eq_true_eq] at hx
    simp [FLine.committed, hx.2, hd]
  refine ⟨freeLineId (DestroyNodeLine (st.lines.eraseP (joins t.from_ d.id)) t), ?_⟩
  unfold commitLink
  simp only [h1, CreateNodeLine, List.dropLast_concat]
  rw [← h3, ← h2]
  simp [committedLines, List.filter_append, FLine.committed, hd]

/-- Claim C11: in a registry whose line ids are distinct and which holds the line
being drawn, the commit of an accepted edge from `f` to the node `d` leaves every
committed line between other nodes as it was, removes the first committed line
from `f` to `d` and appends the new one; when no (from, to) pair was duplicated
among the committed lines, exactly one committed line goes from `f` to `d`
afterwards and no pair is duplicated. -/
theorem commitLink_replaces (CalculateValues : List FNode → List FLine → List FNode)
    (st : Editor) (d : FNode) (t : FLine)
    (hids : (st.lines.map (fun l => l.id)).Nodup) (ht : t ∈ st.lines) (hto : t.to_ = -1)
    (hd : d.id ≠ -1) :
    (committedLines (commitLink CalculateValues st d t).lines).filter
        (fun l => !joins t.from_ d.id l)
      = (committedLines st.lines).filter (fun l => !joins t.from_ d.id l)
    ∧ ((committedLines (commitLink CalculateValues st d t).lines).filter
        (joins t.from_ d.id)).length
      = ((committedLines st.lines).filter (joins t.from_ d.id)).length - 1 + 1
    ∧ ((committedPairs st.lines).Nodup →
        ((committedLines (commitLink CalculateValues st d t).lines).filter
          (joins t.from_ d.id)).length = 1
        ∧ (committedPairs (commitLink CalculateValues st d t).lines).Nodup) := by
  obtain ⟨id, hcl⟩ := committedLines_commitLink CalculateValues st d t hids ht hto hd
  have hnew : joins t.from_ d.id { id := id, from_ := t.from_, to_ := d.id } = true := by
    simp [joins]
  have hlen : ((committedLines (commitLink CalculateValues st d t).lines).filter
        (joins t.from_ d.id)).length
      = ((committedLines st.lines).filter (joins t.from_ d.id)).length - 1 + 1 := by
    rw [hcl, List.filter_append, filter_eraseP_self]
    simp [List.filter_cons, hnew]
  refine ⟨?_, hlen, ?_⟩
  · rw [hcl, List.filter_append, filter_not_eraseP_self]
    simp [List.filter_cons, hnew]
  · intro hnd
    have hle : ((committedLines st.lines).filter (joins t.from_ d.id)).length ≤ 1 := by
      have hsubl : List.Sublist
          (((committedLines st.lines).filter (joins t.from_ d.id)).map (fun l => (l.from_, l.to_)))
          (committedPairs st.lines) :=
        List.Sublist.map _ (List.filter_sublist _)
      have hnd' := List.Nodup.sublist hsubl hnd
      match hf : (committedLines st.lines).filter (joins t.from_ d.id) with
      | [] => simp
      | [_] => simp
      | a :: b :: rest =>
        exfalso
        have ha : a ∈ (committedLines st.lines).filter (joins t.from_ d.id) := by
          rw [hf]; exact List.mem_cons_self _ _
        have hb : b ∈ (committedLines st.lines).filter (joins t.from_ d.id) := by
          rw [hf]; exact List.mem_cons_of_mem _ (List.mem_cons_self _ _)
        have hja := (List.mem_filter.mp ha).2
        have hjb := (List.mem_filter.mp hb).2
        simp only [joins, Bool.and_eq_true, decide_eq_true_eq] at hja hjb
        rw [hf] at hnd'
        simp [hja.1, hja.2, hjb.1, hjb.2] at hnd'
    have htail : ((committedLines st.lines).filter (joins t.from_ d.id)).tail = [] := by
      apply List.eq_nil_of_length_eq_zero
      rw [List.length_tail]
      omega
    refine ⟨by rw [hlen]; omega, ?_⟩
    unfold committedPairs
    rw [hcl, List.map_append]
    apply List.Nodup.append
    · exact List.Nodup.sublist (List.Sublist.map _ (List.eraseP_sublist _)) hnd
    · simp
    · intro p hp hp'
      simp only [List.map_cons, List.map_nil, List.mem_singleton] at hp'
      obtain ⟨x, hx, hxp⟩ := List.mem_map.mp hp
      have hjx : joins t.from_ d.id x = true := by
        rw [hp'] at hxp
        simp only [Prod.mk.injEq] at hxp
        simp [joins, hxp.1, hxp.2]
      have hmem : x ∈ ((committedLines st.lines).eraseP (joins t.from_ d.id)).filter
          (joins t.from_ d.id) := List.mem_filter.mpr ⟨hx, hjx⟩
      rw [filter_eraseP_self, htail] at hmem
      simp at hmem

/-- The replacement of C11 in a state where a committed line already goes from
node 5 to node 2: the ids are distinct, the line being drawn is in the registry
and is not committed, no pair is duplicated, and after the commit exactly one
committed line goes from node 5 to node 2 and no pair is duplicated. -/
theorem commitLink_replaces_witness :
    (replacingState.lines.map (fun l => l.id)).Nodup
      ∧ ({ id := 1, from_ := 5, to_ := -1 } : FLine) ∈ replacingState.lines
      ∧ (committedPairs replacingState.lines).Nodup
      ∧ ((committedLines (commitLink (fun nodes _ => nodes) replacingState
            (exampleNode 2 FNODE_ADD [5, -1, -1, -1] 1 4 1)
            { id := 1, from_ := 5, to_ := -1 }).lines).filter (joins 5 2)).length = 1
      ∧ (committedPairs (commitLink (fun nodes _ => nodes) replacingState
            (exampleNode 2 FNODE_ADD [5, -1, -1, -1] 1 4 1)
            { id := 1, from_ := 5, to_ := -1 }).lines).Nodup :=
  ⟨by decide, by decide, by decide,
    (commitLink_replaces (fun nodes _ => nodes) replacingState
      (exampleNode 2 FNODE_ADD [5, -1, -1, -1] 1 4 1) { id := 1, from_ := 5, to_ := -1 }
      (by decide) (by decide) rfl (by decide)).2.2 (by decide)⟩

/-! ## Link gesture: rejection -/

/-- A rejection on arity grounds has read the source node: the lookup of the source
of the line resolved. -/
theorem source_resolves_of_rejected {nodes : List FNode} {d : FNode} {from_ : Int}
    (h : linkAccepted nodes d from_ = .ok false) :
    ∃ s, nodeAt nodes (GetNodeIndex nodes from_) = .ok s := by
  cases hn : nodeAt nodes (GetNodeIndex nodes from_) with
  | ok s => exact ⟨s, rfl⟩
  | error e =>
    exfalso
    have hv : valuesCheck nodes d (GetNodeIndex nodes from_) ≠ .ok false := by
      intro hv
      unfold valuesCheck at hv
      cases hty : d.type <;>
        simp [hty, hn, bind, Except.bind, pure, Except.pure, FNodeType.rank,
          FNodeType.toCtorIdx] at hv
      split_ifs at hv
      simp at hv
    unfold linkAccepted at h
    cases hc : valuesCheck nodes d (GetNodeIndex nodes from_) with
    | error e' => simp [hc, bind, Except.bind] at h
    | ok b =>
      cases b with
      | true => simp [hc, bind, Except.bind, pure, Except.pure] at h
      | false => exact hv hc

/-- Claim C12: a candidate of the loop of `UpdateNodesLink` that passes the slot
gate and is rejected on arity grounds is passed over with the state untouched;
when every candidate under the mouse that passes the gate is rejected, the loop
and the whole frame return the state they were given, so that no node, no line
and neither the line being drawn nor `lineState` has changed. -/
theorem reject_is_atomic (CalculateValues : List FNode → List FLine → List FNode) (m : Mouse)
    (st : Editor) (t : FLine) :
    (∀ i d rest, m.overInput i = true → d.id ≠ t.from_ → d.inputsCount < d.inputsLimit →
        linkAccepted st.nodes d t.from_ = .ok false →
        linkLoop CalculateValues m st t ((i, d) :: rest) = linkLoop CalculateValues m st t rest)
    ∧ (∀ cands : List (Nat × FNode),
        (∀ p ∈ cands, m.overInput p.1 = true → p.2.id ≠ t.from_ →
          p.2.inputsCount < p.2.inputsLimit → linkAccepted st.nodes p.2 t.from_ = .ok false) →
        linkLoop CalculateValues m st t cands = .ok st)
    ∧ (st.selectedNode = -1 → st.commentState = 0 → st.selectedComment = -1 →
        st.lineState = 1 → m.leftPressed = true → st.tempLine = some t →
        (∀ p ∈ st.nodes.enum, m.overInput p.1 = true → p.2.id ≠ t.from_ →
          p.2.inputsCount < p.2.inputsLimit → linkAccepted st.nodes p.2 t.from_ = .ok false) →
        UpdateNodesLink CalculateValues m st = .ok st) := by
  have hstep : ∀ i d rest, m.overInput i = true → d.id ≠ t.from_ →
      d.inputsCount < d.inputsLimit → linkAccepted st.nodes d t.from_ = .ok false →
      linkLoop CalculateValues m st t ((i, d) :: rest)
        = linkLoop CalculateValues m st t rest := by
    intro i d rest h1 h2 h3 hrej
    obtain ⟨s, hs⟩ := source_resolves_of_rejected hrej
    rw [linkLoop, if_pos ⟨h1, h2, h3⟩]
    simp [hrej, hs, bind, Except.bind]
  have hall : ∀ cands : List (Nat × FNode),
      (∀ p ∈ cands, m.overInput p.1 = true → p.2.id ≠ t.from_ →
        p.2.inputsCount < p.2.inputsLimit → linkAccepted st.nodes p.2 t.from_ = .ok false) →
      linkLoop CalculateValues m st t cands = .ok st := by
    intro cands
    induction cands with
    | nil => intro _; rfl
    | cons p rest ih =>
      obtain ⟨i, d⟩ := p
      intro h
      have hrest := ih (fun q hq => h q (List.mem_cons_of_mem _ hq))
      by_cases hg : m.overInput i = true ∧ d.id ≠ t.from_ ∧ d.inputsCount < d.inputsLimit
      · rw [hstep i d rest hg.1 hg.2.1 hg.2.2
          (h (i, d) (List.mem_cons_self _ _) hg.1 hg.2.1 hg.2.2)]
        exact hrest
      · rw [linkLoop, if_neg hg]
        exact hrest
  refine ⟨hstep, hall, ?_⟩
  intro hs hc hsc hl hm htl hrej
  have hl0 : ¬ st.lineState = 0 := by rw [hl]; decide
  unfold UpdateNodesLink
  rw [if_pos ⟨hs, hc, hsc⟩, if_neg hl0, if_pos hl, if_pos hm, htl]
  exact hall _ hrej

/-- The rejection of C12 in a state where the mouse is over the source itself and
over a `Normalize` node without inputs: the only candidate that passes the gate
is rejected, and the frame leaves the state as it was. -/
theorem reject_is_atomic_witness :
    linkAccepted rejectingState.nodes freshNormalize lineInProgress.from_ = .ok false
      ∧ UpdateNodesLink (fun nodes _ => nodes) clickOnInputs rejectingState = .ok rejectingState :=
  ⟨rfl,
    (reject_is_atomic (fun nodes _ => nodes) clickOnInputs rejectingState lineInProgress).2.2
      rfl rfl rfl rfl rfl rfl
      (by
        intro p hp _ hne _
        have hp' : p = (0, valueSource) ∨ p = (1, freshNormalize) := by
          simpa [rejectingState, List.enum, List.enumFrom] using hp
        rcases hp' with h | h
        · subst h
          exact absurd rfl hne
        · subst h
          rfl)⟩

/-! ## Link gesture: cycles -/

/-- Counterexample to C13: from the start-up graph with two `Add` nodes, four
frames of `UpdateNodesLink` commit a line from node 2 to node 3 and then a line
from node 3 to node 2; both are accepted, and the committed lines are not
acyclic. -/
theorem two_commits_close_a_cycle :
    linesOf (UpdateNodesLinkFrames wireInputs cycleFrames cycleStart) = some cycleLines
      ∧ ¬ Acyclic cycleLines := by
  constructor
  · decide!
  · intro h
    apply h 2
    exact Reaches.trans
      (Reaches.step { id := 0, from_ := 2, to_ := 3 } (by decide) rfl rfl)
      (Reaches.step { id := 1, from_ := 3, to_ := 2 } (by decide) rfl rfl)

/-- Whenever the loop of `UpdateNodesLink` returns, the state is the given one or
the commit of an edge into a node that is not the source of the line. -/
theorem linkLoop_ok_cases (CalculateValues : List FNode → List FLine → List FNode) (m : Mouse)
    (st : Editor) (t : FLine) :
    ∀ (cands : List (Nat × FNode)) (st' : Editor),
      linkLoop CalculateValues m st t cands = .ok st' →
      st' = st ∨ ∃ d : FNode, d.id ≠ t.from_ ∧ st' = commitLink CalculateValues st d t
  | [], st', h => by
    left
    simp [linkLoop, pure, Except.pure] at h
    exact h.symm
  | (i, d) :: rest, st', h => by
    by_cases hg : m.overInput i = true ∧ d.id ≠ t.from_ ∧ d.inputsCount < d.inputsLimit
    · rw [linkLoop, if_pos hg] at h
      cases hacc : linkAccepted st.nodes d t.from_ with
      | error e => simp [hacc, bind, Except.bind] at h
      | ok b =>
        cases b with
        | true =>
          simp [hacc, bind, Except.bind, pure, Except.pure] at h
          exact Or.inr ⟨d, hg.2.1, h.symm⟩
        | false =>
          simp only [hacc, bind, Except.bind] at h
          cases hn : nodeAt st.nodes (GetNodeIndex st.nodes t.from_) with
          | error e => simp [hn] at h
          | ok s =>
            simp [hn] at h
            exact linkLoop_ok_cases CalculateValues m st t rest st' h
    · rw [linkLoop, if_neg hg] at h
      exact linkLoop_ok_cases CalculateValues m st t rest st' h

/-- Claim C13 as amended: a commit made by the loop of `UpdateNodesLink` adds no
line from a node to itself; every line of the registry after the loop that was
not in the registry before has two different ends. -/
theorem commit_adds_no_self_loop (CalculateValues : List FNode → List FLine → List FNode)
    (m : Mouse) (st st' : Editor) (t : FLine) (cands : List (Nat × FNode))
    (h : linkLoop CalculateValues m st t cands = .ok st') :
    ∀ l ∈ st'.lines, l ∉ st.lines → l.from_ ≠ l.to_ := by
  intro l hl hnot
  rcases linkLoop_ok_cases CalculateValues m st t cands st' h with h1 | ⟨d, hd, h1⟩
  · rw [h1] at hl
    exact absurd hl hnot
  · rw [h1] at hl
    unfold commitLink at hl
    simp only [CreateNodeLine, List.dropLast_concat, List.mem_append, List.mem_singleton] at hl
    rcases hl with hl | hl
    · exfalso
      apply hnot
      have h2 := List.mem_of_mem_eraseP hl
      split at h2
      · exact List.mem_of_mem_eraseP h2
      · exact h2
    · rw [hl]
      exact fun h => hd h.symm

/-- The amended rule of C13 in a state where the click commits the line from
node 5 to the `Add` node 2: the loop returns the commit, and every line that the
commit added has two different ends. -/
theorem commit_adds_no_self_loop_witness :
    linkLoop (fun nodes _ => nodes) clickOnInputs replacingState { id := 1, from_ := 5, to_ := -1 }
        replacingState.nodes.enum
      = .ok (commitLink (fun nodes _ => nodes) replacingState
          (exampleNode 2 FNODE_ADD [5, -1, -1, -1] 1 4 1) { id := 1, from_ := 5, to_ := -1 })
    ∧ ∀ l ∈ (commitLink (fun nodes _ => nodes) replacingState
          (exampleNode 2 FNODE_ADD [5, -1, -1, -1] 1 4 1) { id := 1, from_ := 5, to_ := -1 }).lines,
        l ∉ replacingState.lines → l.from_ ≠ l.to_ :=
  ⟨rfl,
    commit_adds_no_self_loop (fun nodes _ => nodes) clickOnInputs replacingState _
      { id := 1, from_ := 5, to_ := -1 } replacingState.nodes.enum rfl⟩

/-! ## Code generator: final statement, infix statement, constants -/

/-- Claim C14, evaluated on the graph in which `MVP Matrix` (arity 16) feeds both
sinks: the vertex shader ends with the statement that passes `node_02` to
`gl_Position` and closes `main`, while the fragment shader ends right after the
body, with no assignment to `finalColor` and no closing brace. -/
theorem fragment_matrix_has_no_final_statement :
    vertexText (CompileShader mvpGraph 0 4) = some mvpVertexText
      ∧ fragmentText (CompileShader mvpGraph 0 4) = some mvpFragmentText
      ∧ containsChars "gl_Position = node_02;\n\x7d".toList mvpVertexText.toList = true
      ∧ containsChars "finalColor = ".toList mvpFragmentText.toList = false
      ∧ containsChars "\x7d".toList mvpFragmentText.toList = false := by
  refine ⟨?_, ?_, ?_, ?_, ?_⟩
  · decide!
  · decide!
  · decide!
  · decide!
  · decide!

/-- Claim C15, evaluated on the graph in which the `Add` node 10 has the `Value`
node 100 as its only input and feeds the fragment sink: the fragment shader holds
the constant of node 100 and the final assignment from `node_10`, and no
statement for node 10 between them. -/
theorem prefix_id_suppresses_statement :
    fragmentText (CompileShader prefixGraph 0 4) = some prefixFragmentText
      ∧ containsChars "float node_10 = ".toList prefixFragmentText.toList = false
      ∧ FSearch (some (fHeader ++ "const float node_100 = 2.000;\n")) "float node_10" = true := by
  refine ⟨?_, ?_, ?_⟩
  · decide!
  · decide!
  · decide!

/-- Claim C16, evaluated on the graph in which the `Pi` node 2 feeds both sinks,
with 7 as the value that `printf` fetches for the missing argument: the constant
is declared as `node_07`, and the final assignment uses `node_02`. -/
theorem pi_constant_named_by_junk :
    fragmentText (CompileShader piGraph 7 4) = some (piFragmentText 7)
      ∧ containsChars "const float node_07 = 3.14159265358979323846;".toList
          (piFragmentText 7).toList = true
      ∧ declarationCount (piFragmentText 7) 2 = 0 := by
  refine ⟨?_, ?_, ?_⟩
  · decide!
  · decide!
  · decide!

/-- Claim C19, evaluated on the graph in which the `Pi` node 2 feeds both sinks:
two compilations of the same graph that differ only in the value fetched for the
missing `printf` argument write different texts. -/
theorem pi_text_depends_on_junk :
    fragmentText (CompileShader piGraph 7 4) = some (piFragmentText 7)
      ∧ fragmentText (CompileShader piGraph 8 4) = some (piFragmentText 8)
      ∧ piFragmentText 7 ≠ piFragmentText 8 := by
  refine ⟨?_, ?_, ?_⟩
  · decide!
  · decide!
  · decide!

/-! ## Code generator: unlinked sink -/

/-- No node has the id `id`: the lookup returns `-1`. -/
theorem GetNodeIndex_none :
    ∀ (nodes : List FNode) (id : Int), (∀ n ∈ nodes, n.id ≠ id) → GetNodeIndex nodes id = none
  | [], _, _ => rfl
  | n :: rest, id, h => by
    have hn : n.id ≠ id := h n (List.mem_cons_self _ _)
    have ih := GetNodeIndex_none rest id (fun x hx => h x (List.mem_cons_of_mem _ hx))
    simp [GetNodeIndex, hn, ih]

/-- Claim C17, evaluated on the start-up graph, whose vertex sink has
`inputs[0] == -1`: `CompileShader` makes no check and ends in the dereference of
`nodes[-1]`. -/
theorem unlinked_sink_is_dereferenced :
    initialGraph[0]? = some freshVertexSink ∧ freshVertexSink.input 0 = -1
      ∧ GetNodeIndex initialGraph (freshVertexSink.input 0) = none
      ∧ CompileShader initialGraph 0 4 = .error .badIndex := by
  refine ⟨rfl, rfl, rfl, rfl⟩

/-- The general form of the evaluation above: in a registry without a node of id
`-1`, a vertex sink with `inputs[0] == -1` makes `CompileShader` index the node
table with the unresolved index `-1` before anything of the generator has run, and
a fragment sink with `inputs[0] == -1` keeps `CompileShader` from returning. -/
theorem unlinked_sink_bad_index (nodes : List FNode) (junk : Int) (fuel : Nat)
    (hid : ∀ n ∈ nodes, n.id ≠ -1) :
    (∀ sink, nodes[0]? = some sink → sink.input 0 = -1 →
        CompileShader nodes junk fuel = .error .badIndex)
    ∧ (∀ sink, nodes[1]? = some sink → sink.input 0 = -1 →
        ∃ e, CompileShader nodes junk fuel = .error e) := by
  have hnone := GetNodeIndex_none nodes (-1) hid
  constructor
  · intro sink hs hin
    simp [CompileShader, nodeAt, hs, hin, hnone, bind, Except.bind, pure, Except.pure]
  · intro sink hs hin
    unfold CompileShader
    simp only [bind, Except.bind]
    split
    · exact ⟨_, rfl⟩
    · split
      · exact ⟨_, rfl⟩
      · split
        · exact ⟨_, rfl⟩
        · split
          · exact ⟨_, rfl⟩
          · simp [nodeAt, hs, hin, hnone]

/-! ## Snapshot: reading back -/

/-- Every chain of `islandLines` ends at node 3. -/
theorem islandLines_reaches {a b : Int} (h : Reaches islandLines a b) : b = 3 := by
  induction h with
  | step l hl _ hto =>
    have hl' : l = { id := 0, from_ := 2, to_ := 3 } := by
      simpa [islandLines, committedLines, FLine.committed] using hl
    rw [← hto, hl']
  | trans _ _ _ ih => exact ih

/-- Counterexample to C20: the `Add` nodes 2 and 3 are linked to each other, no
chain of lines leads from either to a sink, and `ClearUnusedNodes` keeps both. -/
theorem linked_island_survives :
    (ClearUnusedNodes islandGraph islandLines).1 = islandGraph
      ∧ ¬ Reaches islandLines 2 0 ∧ ¬ Reaches islandLines 2 1
      ∧ ¬ Reaches islandLines 3 0 ∧ ¬ Reaches islandLines 3 1 := by
  refine ⟨by decide!, ?_, ?_, ?_, ?_⟩ <;>
  · intro h
    have := islandLines_reaches h
    omega

/-- The loop of `ClearUnusedNodes` over nodes with distinct ids, seen from the
nodes that are still to be visited: the visited part keeps its used nodes. -/
theorem clearLoop_filter (lines : List FLine) :
    ∀ (R T : List FNode), (R.map (fun n => n.id)).Nodup →
      clearLoop R (R.reverse ++ T, lines) = (R.reverse.filter (isUsed lines) ++ T, lines)
  | [], T, _ => by simp [clearLoop]
  | n :: R, T, hids => by
    have hcons : (n.id :: R.map (fun n => n.id)).Nodup := by simpa using hids
    have hR := (List.nodup_cons.mp hcons).2
    have hn := (List.nodup_cons.mp hcons).1
    by_cases hu : isUsed lines n = true
    · rw [clearLoop, if_pos hu]
      have ih := clearLoop_filter lines R (n :: T) hR
      simp only [List.reverse_cons, List.append_assoc, List.singleton_append,
        List.filter_append, List.filter_cons, hu, if_true, List.filter_nil]
      exact ih
    · rw [clearLoop, if_neg hu]
      have hlines : lines.filter (fun l => decide (l.from_ ≠ n.id) && decide (l.to_ ≠ n.id))
          = lines := by
        apply List.filter_eq_self.mpr
        intro l hl
        have hu' : isUsed lines n = false := by simpa using hu
        simp only [isUsed, Bool.or_eq_false_iff, List.any_eq_false] at hu'
        have := hu'.2 l hl
        simp only [Bool.or_eq_true, decide_eq_true_eq, not_or] at this
        simp [Ne.symm this.1, Ne.symm this.2]
      have hnodes : (R.reverse ++ [n] ++ T).eraseP (fun x => decide (x.id = n.id))
          = R.reverse ++ T := by
        rw [List.append_assoc, List.eraseP_append_right]
        · simp [List.eraseP_cons]
        · intro b hb hbid
          apply hn
          have hb' : b ∈ R := List.mem_reverse.mp hb
          have : b.id = n.id := by simpa using hbid
          rw [← this]
          exact List.mem_map_of_mem _ hb'
      have ih := clearLoop_filter lines R T hR
      simp only [DestroyNode, List.reverse_cons, hlines, hnodes, List.filter_append,
        List.filter_cons, hu, List.filter_nil, List.append_nil]
      simpa using ih

/-- Claim C20 as amended: in a registry with distinct node ids,
`ClearUnusedNodes` keeps exactly the nodes that are a sink or an end of some line
of the registry, in their order, and removes no line; a node stays iff it is a
sink or a line has it as `from` or as `to`. -/
theorem clearUnused_keeps_linked (nodes : List FNode) (lines : List FLine)
    (hids : (nodes.map (fun n => n.id)).Nodup) :
    ClearUnusedNodes nodes lines = (nodes.filter (isUsed lines), lines)
    ∧ ∀ n, n ∈ (ClearUnusedNodes nodes lines).1 ↔
        n ∈ nodes ∧ (n.type.rank ≥ FNODE_VERTEX.rank
          ∨ ∃ l ∈ lines, n.id = l.from_ ∨ n.id = l.to_) := by
  have hrev : (nodes.reverse.map (fun n => n.id)).Nodup := by
    rw [List.map_reverse]
    exact List.nodup_reverse.mpr hids
  have h := clearLoop_filter lines nodes.reverse [] hrev
  have heq : ClearUnusedNodes nodes lines = (nodes.filter (isUsed lines), lines) := by
    simpa [ClearUnusedNodes] using h
  refine ⟨heq, ?_⟩
  intro n
  rw [heq]
  simp [List.mem_filter, isUsed]

/-- The amended rule of C20 on the island graph: the ids are distinct, and the
two sinks and the two linked `Add` nodes all stay. -/
theorem clearUnused_keeps_linked_witness :
    (islandGraph.map (fun n => n.id)).Nodup
      ∧ ClearUnusedNodes islandGraph islandLines = (islandGraph, islandLines) :=
  ⟨by decide, (clearUnused_keeps_linked islandGraph islandLines (by decide)).1.trans (by decide!)⟩

/-! ## Clearing the graph -/

/-- A node type is at or above `FNODE_VERTEX` exactly when it is one of the two
sink types. -/
theorem rank_ge_vertex_iff (t : FNodeType) :
    t.rank ≥ FNODE_VERTEX.rank ↔ t = FNODE_VERTEX ∨ t = FNODE_FRAGMENT := by
  cases t <;> simp [FNodeType.rank, FNodeType.toCtorIdx]

/-- Erasing by id the node `n` from a registry in which no node before `n` has
its id removes `n` itself. -/
theorem eraseP_node_mid (R T : List FNode) (n : FNode)
    (hn : n.id ∉ R.map (fun x => x.id)) :
    (R.reverse ++ [n] ++ T).eraseP (fun x => decide (x.id = n.id)) = R.reverse ++ T := by
  rw [List.append_assoc, List.eraseP_append_right]
  · simp [List.eraseP_cons]
  · intro b hb hbid
    apply hn
    have hb' : b ∈ R := List.mem_reverse.mp hb
    have : b.id = n.id := by simpa using hbid
    rw [← this]
    exact List.mem_map_of_mem _ hb'

/-- The loop of `ClearGraph` over nodes with distinct ids, seen from the nodes
that are still to be visited: the visited part keeps its sinks, whatever the
lines are. -/
theorem clearGraphLoop_nodes :
    ∀ (R T : List FNode) (lines : List FLine), (R.map (fun n => n.id)).Nodup →
      (clearGraphLoop R (R.reverse ++ T, lines)).1 = sinkNodes R.reverse ++ T
  | [], T, lines, _ => by simp [clearGraphLoop, sinkNodes]
  | n :: R, T, lines, hids => by
    have hcons : (n.id :: R.map (fun n => n.id)).Nodup := by simpa using hids
    have hR := (List.nodup_cons.mp hcons).2
    have hn := (List.nodup_cons.mp hcons).1
    by_cases hu : n.type.rank < FNODE_VERTEX.rank
    · rw [clearGraphLoop, if_pos hu]
      have hnodes := eraseP_node_mid R T n hn
      have ih := clearGraphLoop_nodes R T
        (lines.filter (fun l => decide (l.from_ ≠ n.id) && decide (l.to_ ≠ n.id))) hR
      have hu' : ¬ n.type.rank ≥ FNODE_VERTEX.rank := by omega
      simp only [DestroyNode, List.reverse_cons, hnodes]
      rw [ih]
      simp [sinkNodes, List.filter_append, hu']
    · rw [clearGraphLoop, if_neg hu]
      have ih := clearGraphLoop_nodes R (n :: T) lines hR
      have hu' : n.type.rank ≥ FNODE_VERTEX.rank := by omega
      simp only [List.reverse_cons, List.append_assoc, List.singleton_append]
      rw [ih]
      simp [sinkNodes, List.filter_append, hu']

/-- The loop of `ClearGraph` changes nothing when every node to be visited is a
sink. -/
theorem clearGraphLoop_sinks :
    ∀ (R : List FNode) (st : List FNode × List FLine),
      (∀ n ∈ R, n.type.rank ≥ FNODE_VERTEX.rank) → clearGraphLoop R st = st
  | [], st, _ => by simp [clearGraphLoop]
  | n :: R, st, h => by
    have hn : ¬ n.type.rank < FNODE_VERTEX.rank := by
      have := h n (List.mem_cons_self _ _)
      omega
    rw [clearGraphLoop, if_neg hn]
    exact clearGraphLoop_sinks R st (fun x hx => h x (List.mem_cons_of_mem _ hx))

/-- The comment loop of `ClearGraph` over comments with distinct ids removes
every visited comment. -/
theorem clearCommentsLoop_all :
    ∀ (R T : List FComment), (R.map (fun c => c.id)).Nodup →
      clearCommentsLoop R (R.reverse ++ T) = T
  | [], T, _ => by simp [clearCommentsLoop]
  | c :: R, T, hids => by
    have hcons : (c.id :: R.map (fun c => c.id)).Nodup := by simpa using hids
    have hR := (List.nodup_cons.mp hcons).2
    have hc := (List.nodup_cons.mp hcons).1
    have herase : (R.reverse ++ [c] ++ T).eraseP (fun x => decide (x.id = c.id))
        = R.reverse ++ T := by
      rw [List.append_assoc, List.eraseP_append_right]
      · simp [List.eraseP_cons]
      · intro b hb hbid
        apply hc
        have hb' : b ∈ R := List.mem_reverse.mp hb
        have : b.id = c.id := by simpa using hbid
        rw [← this]
        exact List.mem_map_of_mem _ hb'
    rw [clearCommentsLoop]
    simp only [DestroyComment, List.reverse_cons, herase]
    exact clearCommentsLoop_all R T hR

/-- Claim C21: in registries with distinct node ids and distinct comment ids,
after `ClearGraph` the node registry holds exactly the nodes of type VERTEX or
FRAGMENT that it held before, in the same order, every other node is gone, the
comment registry is empty, and a second `ClearGraph` changes nothing. -/
theorem clearGraph_keeps_sinks (nodes : List FNode) (lines : List FLine)
    (comments : List FComment)
    (hids : (nodes.map (fun n => n.id)).Nodup)
    (hcids : (comments.map (fun c => c.id)).Nodup) :
    (ClearGraph nodes lines comments).1
        = nodes.filter (fun n => decide (n.type = FNODE_VERTEX ∨ n.type = FNODE_FRAGMENT))
      ∧ (∀ n, n ∈ (ClearGraph nodes lines comments).1 ↔
          n ∈ nodes ∧ (n.type = FNODE_VERTEX ∨ n.type = FNODE_FRAGMENT))
      ∧ (ClearGraph nodes lines comments).2.2 = []
      ∧ ClearGraph (ClearGraph nodes lines comments).1 (ClearGraph nodes lines comments).2.1
          (ClearGraph nodes lines comments).2.2 = ClearGraph nodes lines comments := by
  have hrev : (nodes.reverse.map (fun n => n.id)).Nodup := by
    rw [List.map_reverse]
    exact List.nodup_reverse.mpr hids
  have hcrev : (comments.reverse.map (fun c => c.id)).Nodup := by
    rw [List.map_reverse]
    exact List.nodup_reverse.mpr hcids
  have hnodes : (ClearGraph nodes lines comments).1 = sinkNodes nodes := by
    have h := clearGraphLoop_nodes nodes.reverse [] lines hrev
    simpa [ClearGraph] using h
  have hcomments : (ClearGraph nodes lines comments).2.2 = [] := by
    have h := clearCommentsLoop_all comments.reverse [] hcrev
    simpa [ClearGraph] using h
  have hfilter : sinkNodes nodes
      = nodes.filter (fun n => decide (n.type = FNODE_VERTEX ∨ n.type = FNODE_FRAGMENT)) := by
    unfold sinkNodes
    congr 1
    funext n
    simp only [rank_ge_vertex_iff]
  refine ⟨hnodes.trans hfilter, ?_, hcomments, ?_⟩
  · intro n
    rw [hnodes, hfilter]
    simp [List.mem_filter]
  · have hsecond : clearGraphLoop (ClearGraph nodes lines comments).1.reverse
        ((ClearGraph nodes lines comments).1, (ClearGraph nodes lines comments).2.1)
        = ((ClearGraph nodes lines comments).1, (ClearGraph nodes lines comments).2.1) := by
      apply clearGraphLoop_sinks
      intro n hn
      rw [List.mem_reverse, hnodes] at hn
      simpa [sinkNodes] using (List.mem_filter.mp hn).2
    rw [ClearGraph, hsecond, hcomments]
    simp only [List.reverse_nil, clearCommentsLoop]
    rw [← hcomments]

/-- Claim C21 on the diamond graph with two comments: the ids are distinct, the
two sinks are what is left of the five nodes, and no comment is left. -/
theorem clearGraph_keeps_sinks_witness :
    (diamondGraph.map (fun n => n.id)).Nodup
      ∧ (([{ id := 0 }, { id := 1 }] : List FComment).map (fun c => c.id)).Nodup
      ∧ (ClearGraph diamondGraph diamondLines [{ id := 0 }, { id := 1 }]).1
          = [exampleNode 0 FNODE_VERTEX [4, -1, -1, -1] 1 1 1,
             exampleNode 1 FNODE_FRAGMENT [4, -1, -1, -1] 1 1 1]
      ∧ (ClearGraph diamondGraph diamondLines [{ id := 0 }, { id := 1 }]).2.2 = [] :=
  ⟨by decide, by decide,
    (clearGraph_keeps_sinks diamondGraph diamondLines [{ id := 0 }, { id := 1 }]
      (by decide) (by decide)).1.trans (by decide),
    (clearGraph_keeps_sinks diamondGraph diamondLines [{ id := 0 }, { id := 1 }]
      (by decide) (by decide)).2.2.1⟩

/-! ## Sinks are never destroyed -/

/-- The number of sinks of a registry is read off the types of its nodes. -/
theorem sinkNodes_length_types (nodes : List FNode) :
    (sinkNodes nodes).length
      = ((nodes.map (fun n => n.type)).filter
          (fun t => decide (t.rank ≥ FNODE_VERTEX.rank))).length := by
  induction nodes with
  | nil => rfl
  | cons n rest ih =>
    by_cases h : n.type.rank ≥ FNODE_VERTEX.rank
    · simpa [sinkNodes, List.filter_cons, h] using ih
    · simpa [sinkNodes, List.filter_cons, h] using ih

/-- Placing a node leaves the types of the registry as they are. -/
theorem placeNode_types (id : Int) (pos : Int × Int) (nodes : List FNode) :
    (placeNode id pos nodes).map (fun n => n.type) = nodes.map (fun n => n.type) := by
  induction nodes with
  | nil => rfl
  | cons n rest ih =>
    by_cases h : n.id = id
    · simp [placeNode, h]
    · simp [placeNode, h, ih]

/-- Destroying, by its id, a node of the registry that is not a sink leaves the
sinks of a registry with distinct ids as they are. -/
theorem sinkNodes_eraseP (x : FNode) (hx : ¬ x.type.rank ≥ FNODE_VERTEX.rank) :
    ∀ (nodes : List FNode), x ∈ nodes → (nodes.map (fun n => n.id)).Nodup →
      sinkNodes (nodes.eraseP (fun n => decide (n.id = x.id))) = sinkNodes nodes
  | [], h, _ => by simp at h
  | n :: rest, hmem, hids => by
    have hcons : (n.id :: rest.map (fun n => n.id)).Nodup := by simpa using hids
    have hn := (List.nodup_cons.mp hcons).1
    have hrest := (List.nodup_cons.mp hcons).2
    by_cases hid : n.id = x.id
    · have hnx : n = x := by
        rcases List.mem_cons.mp hmem with h | h
        · exact h.symm
        · exfalso
          apply hn
          rw [hid]
          exact List.mem_map_of_mem _ h
      subst hnx
      simp [sinkNodes, List.eraseP_cons, List.filter_cons, hx]
    · have hxrest : x ∈ rest := by
        rcases List.mem_cons.mp hmem with h | h
        · exact absurd (by rw [h]) hid
        · exact h
      have ih := sinkNodes_eraseP x hx rest hxrest hrest
      simp only [sinkNodes] at ih
      simp [sinkNodes, List.eraseP_cons, hid, List.filter_cons, ih]

/-- A pair found in the enumeration of a registry is a node of the registry. -/
theorem mem_of_find_enum_reverse {nodes : List FNode} {p : Nat × FNode}
    {q : Nat × FNode → Bool} (h : nodes.enum.reverse.find? q = some p) :
    p.2 ∈ nodes ∧ q p = true := by
  have hq := List.find?_some h
  have hm := List.mem_reverse.mp (List.mem_of_find?_eq_some h)
  have hp : (p.1, p.2) ∈ nodes.enum := hm
  rw [List.mk_mem_enum_iff_getElem?] at hp
  exact ⟨List.getElem?_mem hp, hq⟩

/-- Claim C22: the right-click destroy of `UpdateNodesDrag`, `ClearUnusedNodes`
and `ClearGraph` destroy only nodes whose type is below VERTEX: in a registry
with distinct ids the number of sinks is the same before and after a frame of
`UpdateNodesDrag` (given that `CalculateValues` keeps the types of the nodes),
and `ClearUnusedNodes` and `ClearGraph` leave the list of sinks as it is. -/
theorem destroy_spares_sinks (CalculateValues : List FNode → List FLine → List FNode)
    (f : Frame) (s : Session) (lines : List FLine) (comments : List FComment)
    (hids : (s.editor.nodes.map (fun n => n.id)).Nodup)
    (hcalc : ∀ ns ls, (CalculateValues ns ls).map (fun n => n.type) = ns.map (fun n => n.type)) :
    (sinkNodes (UpdateNodesDrag CalculateValues f s).editor.nodes).length
        = (sinkNodes s.editor.nodes).length
      ∧ sinkNodes (ClearUnusedNodes s.editor.nodes lines).1 = sinkNodes s.editor.nodes
      ∧ sinkNodes (ClearGraph s.editor.nodes lines comments).1 = sinkNodes s.editor.nodes := by
  have hrev : (s.editor.nodes.reverse.map (fun n => n.id)).Nodup := by
    rw [List.map_reverse]
    exact List.nodup_reverse.mpr hids
  refine ⟨?_, ?_, ?_⟩
  · unfold UpdateNodesDrag
    simp only
    split_ifs with h1 h2 h3 h4 h5
    · split
      · rfl
      · rfl
    · split
      · rename_i p hp
        obtain ⟨hmem, hq⟩ := mem_of_find_enum_reverse hp
        have hty : ¬ p.2.type.rank ≥ FNODE_VERTEX.rank := by
          simp only [Bool.and_eq_true, decide_eq_true_eq] at hq
          omega
        simp only [DestroyNode]
        rw [sinkNodes_length_types, hcalc, ← sinkNodes_length_types,
          sinkNodes_eraseP p.2 hty _ hmem hids]
      · rfl
    · rfl
    · simp only
      rw [sinkNodes_length_types, placeNode_types, ← sinkNodes_length_types]
    · simp only
      rw [sinkNodes_length_types, placeNode_types, ← sinkNodes_length_types]
    · rfl
  · have h := clearLoop_filter lines s.editor.nodes.reverse [] hrev
    have heq : (ClearUnusedNodes s.editor.nodes lines).1
        = s.editor.nodes.filter (isUsed lines) := by
      simp only [List.reverse_reverse, List.append_nil] at h
      simp [ClearUnusedNodes, h]
    rw [heq]
    simp only [sinkNodes, List.filter_filter]
    congr 1
    funext n
    by_cases hn : n.type.rank ≥ FNODE_VERTEX.rank
    · simp [isUsed, hn]
    · simp [hn]
  · have h := clearGraphLoop_nodes s.editor.nodes.reverse [] lines hrev
    have heq : (ClearGraph s.editor.nodes lines comments).1 = sinkNodes s.editor.nodes := by
      simpa [ClearGraph] using h
    rw [heq]
    simp [sinkNodes, List.filter_filter]

/-- The wiring `wireInputs` keeps the types of the nodes. -/
theorem wireInputs_types (nodes : List FNode) (lines : List FLine) :
    (wireInputs nodes lines).map (fun n => n.type) = nodes.map (fun n => n.type) := by
  simp [wireInputs, List.map_map, Function.comp_def]

/-- Claim C22 on the diamond graph: a right click with every node under the mouse
destroys the `Add` node 4 and leaves the two sinks, and the two clearing
functions leave the sinks as well. -/
theorem destroy_spares_sinks_witness :
    ((idleSession diamondGraph diamondLines []).editor.nodes.map (fun n => n.id)).Nodup
      ∧ (sinkNodes (UpdateNodesDrag wireInputs rightClickOnNodes
            (idleSession diamondGraph diamondLines [])).editor.nodes).length = 2
      ∧ (UpdateNodesDrag wireInputs rightClickOnNodes
            (idleSession diamondGraph diamondLines [])).editor.nodes.map (fun n => n.id)
          = [0, 1, 2, 3]
      ∧ sinkNodes (ClearUnusedNodes diamondGraph diamondLines).1 = sinkNodes diamondGraph
      ∧ sinkNodes (ClearGraph diamondGraph diamondLines []).1 = sinkNodes diamondGraph :=
  ⟨by decide,
    (destroy_spares_sinks wireInputs rightClickOnNodes (idleSession diamondGraph diamondLines [])
      diamondLines [] (by decide) wireInputs_types).1.trans (by decide),
    by decide,
    (destroy_spares_sinks wireInputs rightClickOnNodes (idleSession diamondGraph diamondLines [])
      diamondLines [] (by decide) wireInputs_types).2⟩

/-! ## Code generator: the projection template -/

/-- Evaluation for C24: for a `Projection Vector` node of arity 3 with the inputs
2 and 3, `CompileShader` writes the rejection constructor, the same statement as
for a `Rejection Vector` node with these inputs, and not the projection
constructor that lines 1310-1315 format. -/
theorem projection_emits_rejection :
    fragmentText (CompileShader (binaryVectorGraph FNODE_PROJECTION) 0 8)
        = some (binaryVectorFragmentText rejectionStatement)
      ∧ fragmentText (CompileShader (binaryVectorGraph FNODE_PROJECTION) 0 8)
        = fragmentText (CompileShader (binaryVectorGraph FNODE_REJECTION) 0 8)
      ∧ fragmentText (CompileShader (binaryVectorGraph FNODE_PROJECTION) 0 8)
        ≠ some (binaryVectorFragmentText projectionStatement)
      ∧ projectionText (exampleNode 4 FNODE_PROJECTION [2, 3, -1, -1] 2 2 3) ""
        = "vec3(dot(node_02, node_03)/dot(node_03, node_03)*node_03.x, "
          ++ "dot(node_02, node_03)/dot(node_03, node_03)*node_03.y, "
          ++ "dot(node_02, node_03)/dot(node_03, node_03)*node_03.z);\n" := by
  decide!

/-- The general form: whatever the inputs, for the arities 2, 3 and 4 the text of
a `Projection Vector` node is the text of the `Rejection Vector` node with the
same fields. -/
theorem projection_text_is_rejection_text (node : FNode)
    (hdc : node.dataCount = 2 ∨ node.dataCount = 3 ∨ node.dataCount = 4) :
    operatorText { node with type := FNODE_PROJECTION }
      = operatorText { node with type := FNODE_REJECTION } := by
  rcases hdc with h | h | h <;> simp [operatorText, rejectionText, FNode.input, h]

/-! ## Interactive gestures: which can be active together -/

/-- Counterexample to C25: from the idle session on the diamond graph, one frame
in which the left button goes down over the value field of the `Value` node 2
starts the edit of that value in `UpdateNodesEdit` and the drag of the node in
`UpdateNodesDrag`: two of the six gestures are active after the frame. -/
theorem edit_and_drag_start_together :
    gesturesOf (UpdateFrame wireInputs pressValueField (idleSession diamondGraph diamondLines []))
        = some [true, false, false, false, true, false]
      ∧ activeGestures (idleSession diamondGraph diamondLines [])
        = [false, false, false, false, false, false] := by
  decide

/-- The count of active pointer gestures is at most one exactly when at least
three of the four sentinels are idle. -/
theorem pointerGestures_le_one (s : Session) :
    pointerGestures s ≤ 1 ↔ atMostOnePointer s.editor := by
  unfold pointerGestures activeGestures atMostOnePointer
  by_cases h1 : s.editor.selectedNode = -1 <;> by_cases h2 : s.editor.lineState = 0
    <;> by_cases h3 : s.editor.commentState = 0 <;> by_cases h4 : s.editor.selectedComment = -1
    <;> simp [h1, h2, h3, h4]

/-- The count of active text gestures is at most one exactly when one of the two
sentinels is idle. -/
theorem textGestures_le_one (s : Session) :
    textGestures s ≤ 1 ↔ (s.editNode = -1 ∨ s.editComment = -1) := by
  unfold textGestures activeGestures
  by_cases h1 : s.editNode = -1 <;> by_cases h2 : s.editComment = -1 <;> simp [h1, h2]

/-- Starting a line changes none of the sentinels of the other gestures. -/
theorem startLine_flags (m : Mouse) (st : Editor) :
    ∀ cands : List (Nat × FNode),
      (startLine m st cands).selectedNode = st.selectedNode
        ∧ (startLine m st cands).commentState = st.commentState
        ∧ (startLine m st cands).selectedComment = st.selectedComment
  | [] => by simp [startLine]
  | (i, n) :: rest => by
    by_cases h : m.overOutput i = true
    · simp [startLine, h]
    · simpa [startLine, h] using startLine_flags m st rest

/-- Cutting lines changes none of the sentinels. -/
theorem cutLines_flags (CalculateValues : List FNode → List FLine → List FNode) (m : Mouse)
    (st : Editor) :
    ∀ cands : List (Nat × FNode),
      (cutLines CalculateValues m st cands).selectedNode = st.selectedNode
        ∧ (cutLines CalculateValues m st cands).commentState = st.commentState
        ∧ (cutLines CalculateValues m st cands).selectedComment = st.selectedComment
  | [] => by simp [cutLines]
  | (i, n) :: rest => by
    by_cases h : m.overOutput i = true
    · simp [cutLines, h]
    · by_cases h' : m.overInput i = true
      · simp [cutLines, h, h']
      · simpa [cutLines, h, h'] using cutLines_flags CalculateValues m st rest

/-- A frame of `UpdateNodesLink` keeps the sentinels of the other pointer
gestures, and changes nothing at all unless these three are idle. -/
theorem UpdateNodesLink_flags (CalculateValues : List FNode → List FLine → List FNode)
    (m : Mouse) (st st' : Editor) (h : UpdateNodesLink CalculateValues m st = .ok st') :
    st'.selectedNode = st.selectedNode ∧ st'.commentState = st.commentState
      ∧ st'.selectedComment = st.selectedComment
      ∧ (st' = st ∨ (st.selectedNode = -1 ∧ st.commentState = 0 ∧ st.selectedComment = -1)) := by
  unfold UpdateNodesLink at h
  by_cases hg : st.selectedNode = -1 ∧ st.commentState = 0 ∧ st.selectedComment = -1
  · rw [if_pos hg] at h
    have key : st'.selectedNode = st.selectedNode ∧ st'.commentState = st.commentState
        ∧ st'.selectedComment = st.selectedComment := by
      by_cases h0 : st.lineState = 0
      · rw [if_pos h0] at h
        by_cases hl : m.leftPressed = true
        · rw [if_pos hl] at h
          obtain rfl := Except.ok.inj h
          exact startLine_flags m st _
        · rw [if_neg hl] at h
          by_cases hr : m.rightPressed = true ∧ ¬ m.altDown = true
          · rw [if_pos hr] at h
            obtain rfl := Except.ok.inj h
            exact cutLines_flags CalculateValues m st _
          · rw [if_neg hr] at h
            obtain rfl := Except.ok.inj h
            exact ⟨rfl, rfl, rfl⟩
      · rw [if_neg h0] at h
        by_cases h1 : st.lineState = 1
        · rw [if_pos h1] at h
          by_cases hl : m.leftPressed = true
          · rw [if_pos hl] at h
            cases ht : st.tempLine with
            | none =>
              rw [ht] at h
              simp only at h
              by_cases ha : (st.nodes.enum.any fun p => m.overInput p.1) = true
              · rw [if_pos ha] at h
                cases h
              · rw [if_neg ha] at h
                obtain rfl := Except.ok.inj h
                exact ⟨rfl, rfl, rfl⟩
            | some t =>
              rw [ht] at h
              simp only at h
              rcases linkLoop_ok_cases CalculateValues m st t _ st' h with h' | ⟨d, _, h'⟩
              · rw [h']
                exact ⟨rfl, rfl, rfl⟩
              · rw [h']
                simp [commitLink]
          · rw [if_neg hl] at h
            by_cases hr : m.rightPressed = true
            · rw [if_pos hr] at h
              cases ht : st.tempLine with
              | none =>
                rw [ht] at h
                cases h
              | some t =>
                rw [ht] at h
                obtain rfl := Except.ok.inj h
                exact ⟨rfl, rfl, rfl⟩
            · rw [if_neg hr] at h
              obtain rfl := Except.ok.inj h
              exact ⟨rfl, rfl, rfl⟩
        · rw [if_neg h1] at h
          obtain rfl := Except.ok.inj h
          exact ⟨rfl, rfl, rfl⟩
    exact ⟨key.1, key.2.1, key.2.2, Or.inr hg⟩
  · rw [if_neg hg] at h
    obtain rfl := Except.ok.inj h
    exact ⟨rfl, rfl, rfl, Or.inl rfl⟩

/-- A frame of `UpdateNodesEdit` leaves the editor and `editComment` as they
are, and sets `editNode` only while no comment text is edited. -/
theorem UpdateNodesEdit_flags (f : Frame) (s : Session) :
    (UpdateNodesEdit f s).editor = s.editor
      ∧ (UpdateNodesEdit f s).editComment = s.editComment
      ∧ ((UpdateNodesEdit f s).editNode = s.editNode ∨ (UpdateNodesEdit f s).editNode = -1
          ∨ s.editComment = -1) := by
  unfold UpdateNodesEdit
  by_cases hp : f.mouse.leftPressed = true
  · rw [if_pos hp]
    cases ht : editTarget f s.editor.nodes with
    | none =>
      simp only
      split_ifs <;> simp
    | some p =>
      obtain ⟨node, data⟩ := p
      simp only
      split_ifs with h1 h2 h3
      · exact ⟨rfl, rfl, Or.inr (Or.inr h1.2.2.2.2.2.2.2)⟩
      · exact ⟨rfl, rfl, Or.inr (Or.inr h2.2.2.2.2.2.2.2)⟩
      · exact ⟨rfl, rfl, Or.inl rfl⟩
      · exact ⟨rfl, rfl, Or.inl rfl⟩
  · rw [if_neg hp]
    exact ⟨rfl, rfl, Or.inl rfl⟩

/-- A frame of `UpdateNodesDrag` leaves the two text sentinels as they are and
keeps at most one pointer gesture active. -/
theorem UpdateNodesDrag_flags (CalculateValues : List FNode → List FLine → List FNode)
    (f : Frame) (s : Session) :
    (UpdateNodesDrag CalculateValues f s).editNode = s.editNode
      ∧ (UpdateNodesDrag CalculateValues f s).editComment = s.editComment
      ∧ (atMostOnePointer s.editor →
          atMostOnePointer (UpdateNodesDrag CalculateValues f s).editor) := by
  unfold UpdateNodesDrag
  simp only
  split_ifs with h1 h2 h3 h4 h5
  · split
    · exact ⟨rfl, rfl, fun _ => Or.inl ⟨h1.2.1, h1.2.2.1, h1.2.2.2⟩⟩
    · exact ⟨rfl, rfl, id⟩
  · split
    · exact ⟨rfl, rfl, fun _ => Or.inl ⟨h1.2.1, h1.2.2.1, h1.2.2.2⟩⟩
    · exact ⟨rfl, rfl, id⟩
  · exact ⟨rfl, rfl, id⟩
  · exact ⟨rfl, rfl, fun _ => Or.inl ⟨h4.2.1, h4.2.2.1, h4.2.2.2⟩⟩
  · exact ⟨rfl, rfl, fun _ => Or.inl ⟨h4.2.1, h4.2.2.1, h4.2.2.2⟩⟩
  · exact ⟨rfl, rfl, id⟩

/-- A frame of `UpdateCommentCreationEdit` that returns leaves the two text
sentinels as they are and keeps at most one pointer gesture active. -/
theorem UpdateCommentCreationEdit_flags (f : Frame) (s s' : Session)
    (h : UpdateCommentCreationEdit f s = .ok s') :
    s'.editNode = s.editNode ∧ s'.editComment = s.editComment
      ∧ (atMostOnePointer s.editor → atMostOnePointer s'.editor) := by
  unfold UpdateCommentCreationEdit at h
  simp only at h
  by_cases hg : s.editor.selectedNode = -1 ∧ s.editor.lineState = 0
      ∧ s.editor.selectedComment = -1
  · rw [if_pos hg] at h
    have hone : ∀ e : Editor, e.selectedNode = s.editor.selectedNode →
        e.lineState = s.editor.lineState → e.selectedComment = s.editor.selectedComment →
        atMostOnePointer e := by
      intro e h1 h2 h3
      exact Or.inr (Or.inr (Or.inl ⟨h1.trans hg.1, h2.trans hg.2.1, h3.trans hg.2.2⟩))
    by_cases h0 : s.editor.commentState = 0
    · rw [if_pos h0] at h
      by_cases hl : f.mouse.leftPressed = true
      · rw [if_pos hl] at h
        by_cases ha : f.mouse.altDown = true
        · rw [if_pos ha] at h
          obtain rfl := Except.ok.inj h
          exact ⟨rfl, rfl, fun _ => hone _ rfl rfl rfl⟩
        · rw [if_neg ha] at h
          cases hr : resizeTarget f s.comments.enum with
          | none =>
            rw [hr] at h
            obtain rfl := Except.ok.inj h
            exact ⟨rfl, rfl, id⟩
          | some p =>
            obtain ⟨c, k⟩ := p
            rw [hr] at h
            obtain rfl := Except.ok.inj h
            exact ⟨rfl, rfl, fun _ => hone _ rfl rfl rfl⟩
      · rw [if_neg hl] at h
        obtain rfl := Except.ok.inj h
        exact ⟨rfl, rfl, id⟩
    · rw [if_neg h0] at h
      by_cases h1 : s.editor.commentState = 1
      · rw [if_pos h1] at h
        by_cases he : s.editSize ≠ -1
        · rw [if_pos he] at h
          by_cases hd : f.leftDown = true
          · rw [if_pos hd] at h
            obtain rfl := Except.ok.inj h
            exact ⟨rfl, rfl, id⟩
          · rw [if_neg hd] at h
            obtain rfl := Except.ok.inj h
            exact ⟨rfl, rfl, fun _ => hone _ rfl rfl rfl⟩
        · rw [if_neg he] at h
          cases ht : s.tempComment with
          | none =>
            rw [ht] at h
            cases h
          | some t =>
            rw [ht] at h
            simp only at h
            by_cases hd : f.leftDown = true
            · rw [if_pos hd] at h
              obtain rfl := Except.ok.inj h
              exact ⟨rfl, rfl, id⟩
            · rw [if_neg hd] at h
              obtain rfl := Except.ok.inj h
              exact ⟨rfl, rfl, fun _ => hone _ rfl rfl rfl⟩
      · rw [if_neg h1] at h
        obtain rfl := Except.ok.inj h
        exact ⟨rfl, rfl, id⟩
  · rw [if_neg hg] at h
    obtain rfl := Except.ok.inj h
    exact ⟨rfl, rfl, id⟩

/-- A frame of `UpdateCommentsEdit` leaves the editor and `editNode` as they are,
and changes `editComment` only while no node value is edited. -/
theorem UpdateCommentsEdit_flags (f : Frame) (s : Session) :
    (UpdateCommentsEdit f s).editor = s.editor
      ∧ (UpdateCommentsEdit f s).editNode = s.editNode
      ∧ ((UpdateCommentsEdit f s).editComment = s.editComment ∨ s.editNode = -1) := by
  unfold UpdateCommentsEdit
  simp only
  split_ifs with h1 h2 h3 h4
  · split
    · exact ⟨rfl, rfl, Or.inr h2.2.2.2.2.2.2.2⟩
    · exact ⟨rfl, rfl, Or.inl rfl⟩
  · exact ⟨rfl, rfl, Or.inr h3.2.2.2.2.2.2.2⟩
  · exact ⟨rfl, rfl, Or.inr h3.2.2.2.2.2.2.2⟩
  · exact ⟨rfl, rfl, Or.inl rfl⟩
  · exact ⟨rfl, rfl, Or.inl rfl⟩

/-- A frame of `UpdateCommentsDrag` leaves the two text sentinels as they are and
keeps at most one pointer gesture active. -/
theorem UpdateCommentsDrag_flags (f : Frame) (s : Session) :
    (UpdateCommentsDrag f s).editNode = s.editNode
      ∧ (UpdateCommentsDrag f s).editComment = s.editComment
      ∧ (atMostOnePointer s.editor → atMostOnePointer (UpdateCommentsDrag f s).editor) := by
  unfold UpdateCommentsDrag
  simp only
  split_ifs <;> (try split) <;> refine ⟨rfl, rfl, fun hp => ?_⟩ <;>
    first
      | exact hp
      | simp_all [atMostOnePointer]

/-- One pass over the six update functions keeps at most one pointer gesture and
at most one text gesture active. -/
theorem UpdateFrame_exclusive (CalculateValues : List FNode → List FLine → List FNode)
    (f : Frame) (s s' : Session) (h : UpdateFrame CalculateValues f s = .ok s')
    (hp : atMostOnePointer s.editor) (ht : s.editNode = -1 ∨ s.editComment = -1) :
    atMostOnePointer s'.editor ∧ (s'.editNode = -1 ∨ s'.editComment = -1) := by
  unfold UpdateFrame at h
  obtain ⟨e1, c1, n1⟩ := UpdateNodesEdit_flags f s
  obtain ⟨n2, c2, p2⟩ := UpdateNodesDrag_flags CalculateValues f (UpdateNodesEdit f s)
  rw [e1] at p2
  have hp2 := p2 hp
  cases hl : UpdateNodesLink CalculateValues f.mouse
      (UpdateNodesDrag CalculateValues f (UpdateNodesEdit f s)).editor with
  | error e => simp [hl, bind, Except.bind] at h
  | ok e3 =>
    obtain ⟨l1, l2, l3, l4⟩ := UpdateNodesLink_flags CalculateValues f.mouse _ e3 hl
    have hp3 : atMostOnePointer e3 := by
      rcases l4 with l4 | l4
      · rw [l4]; exact hp2
      · exact Or.inr (Or.inl ⟨l1.trans l4.1, l2.trans l4.2.1, l3.trans l4.2.2⟩)
    cases hc : UpdateCommentCreationEdit f
        { UpdateNodesDrag CalculateValues f (UpdateNodesEdit f s) with editor := e3 } with
    | error e => simp [hl, hc, bind, Except.bind] at h
    | ok s4 =>
      simp only [hl, hc, bind, Except.bind, pure, Except.pure, Except.ok.injEq] at h
      obtain ⟨n4, c4, p4⟩ := UpdateCommentCreationEdit_flags f _ s4 hc
      have hp4 := p4 hp3
      obtain ⟨e5, n5, c5⟩ := UpdateCommentsEdit_flags f s4
      obtain ⟨n6, c6, p6⟩ := UpdateCommentsDrag_flags f (UpdateCommentsEdit f s4)
      rw [e5] at p6
      rw [← h]
      refine ⟨p6 hp4, ?_⟩
      rw [n6, c6, n5]
      have hn4 : s4.editNode = (UpdateNodesEdit f s).editNode := by
        rw [n4]; exact n2
      have hc4 : s4.editComment = s.editComment := by
        rw [c4]; exact c2.trans c1
      have ht4 : s4.editNode = -1 ∨ s4.editComment = -1 := by
        rw [hn4, hc4]
        rcases n1 with n1 | n1 | n1
        · rw [n1]; exact ht
        · exact Or.inl n1
        · exact Or.inr n1
      rcases c5 with c5 | c5
      · rw [c5]; exact ht4
      · exact Or.inl c5

/-- Claim C25 as amended: in every state that the six update functions, run in
the order of the main loop over any frames, reach from a state with at most one
pointer gesture and at most one text gesture active, at most one of the four
pointer gestures (node drag, link, comment creation or resize, comment drag) is
active and at most one of the two text gestures (node value edit, comment text
edit) is active. -/
theorem gestures_exclusive (CalculateValues : List FNode → List FLine → List FNode) :
    ∀ (frames : List Frame) (s s' : Session),
      pointerGestures s ≤ 1 → textGestures s ≤ 1 →
      UpdateFrames CalculateValues frames s = .ok s' →
      pointerGestures s' ≤ 1 ∧ textGestures s' ≤ 1
  | [], s, s', hp, ht, h => by
    obtain rfl := Except.ok.inj h
    exact ⟨hp, ht⟩
  | f :: rest, s, s', hp, ht, h => by
    rw [UpdateFrames] at h
    cases h1 : UpdateFrame CalculateValues f s with
    | error e => simp [h1, bind, Except.bind] at h
    | ok s1 =>
      simp only [h1, bind, Except.bind] at h
      have hstep := UpdateFrame_exclusive CalculateValues f s s1 h1
        ((pointerGestures_le_one s).mp hp) ((textGestures_le_one s).mp ht)
      exact gestures_exclusive CalculateValues rest s1 s'
        ((pointerGestures_le_one s1).mpr hstep.1) ((textGestures_le_one s1).mpr hstep.2) h

/-- The amended rule of C25 on the frame that starts an edit and a drag at once,
followed by a quiet frame: the run returns the session in which only the edit is
still active, and the bound holds before and after the run. -/
theorem gestures_exclusive_witness :
    pointerGestures (idleSession diamondGraph diamondLines []) ≤ 1
      ∧ textGestures (idleSession diamondGraph diamondLines []) ≤ 1
      ∧ UpdateFrames wireInputs [pressValueField, quietFrame]
          (idleSession diamondGraph diamondLines []) = .ok editingSession
      ∧ pointerGestures editingSession ≤ 1 ∧ textGestures editingSession ≤ 1 :=
  ⟨by decide, by decide, rfl,
    gestures_exclusive wireInputs [pressValueField, quietFrame]
      (idleSession diamondGraph diamondLines []) editingSession (by decide) (by decide) rfl⟩

/-! ## Code generator: unset inputs -/

/-- Evaluation for C27: the validator accepts the three links that build
`powerGraph`, in which the `Power` node has one of its two inputs connected, and
`CompileShader` writes for it a statement that names the unset slot, `node_-1`. -/
theorem power_prints_unset_input :
    nodesOf (UpdateNodesLinkFrames wireInputs powerFrames powerStart) = some powerGraph
      ∧ fragmentText (CompileShader powerGraph 0 8) = some powerFragmentText
      ∧ mentionsNode powerFragmentText (-1) = true
      ∧ (exampleNode 3 FNODE_POWER [2, -1, -1, -1] 1 2 1).inputsCount = 1
      ∧ (exampleNode 3 FNODE_POWER [2, -1, -1, -1] 1 2 1).input 1 = -1 := by
  decide!

/-! ## Code generator: the guard of line 1190 -/

/-- Evaluation for C28. (1) With only the constant of the node 100 in the
fragment file, `CompileNode` writes nothing for the `Add` node 10: the text
`float node_100` of another node suppresses it, and the file holds no statement
of the node 10. (2) While the vertex file is generated the guard reads the
fragment file: with the statement of the `Abs` node 3 already in the vertex file,
`CompileNode` writes it again, and with that statement only in the fragment file
it writes nothing to the vertex file. (3) `CompileShader` on `sharedGraph`
declares the node 3 twice in the vertex shader and once in the fragment
shader. -/
theorem guard_reads_other_text :
    CompileNode prefixGraph 4 tenNode hundredDeclared .fragmentFile true = .ok hundredDeclared
      ∧ containsChars "node_10 ".toList "const float node_100 = 2.000;\n".toList = false
      ∧ CompileNode sharedGraph 4 absNode
          { vertex := some "    float node_03 = abs(node_02);\n", fragment := none }
          .vertexFile false
        = .ok { vertex := some ("    float node_03 = abs(node_02);\n"
                  ++ "    float node_03 = abs(node_02);\n"),
                fragment := none }
      ∧ CompileNode sharedGraph 4 absNode
          { vertex := some "", fragment := some "    float node_03 = abs(node_02);\n" }
          .vertexFile false
        = .ok { vertex := some "", fragment := some "    float node_03 = abs(node_02);\n" }
      ∧ vertexText (CompileShader sharedGraph 0 8) = some sharedVertexText
      ∧ fragmentText (CompileShader sharedGraph 0 8) = some sharedFragmentText
      ∧ declarationCount sharedVertexText 3 = 2
      ∧ declarationCount sharedFragmentText 3 = 1 := by
  refine ⟨rfl, by decide, rfl, rfl, ?_, ?_, ?_, ?_⟩ <;> decide!

/-! ## Snapshot: the line records -/

set_option maxRecDepth 20000

/-- Evaluation for C29. (1) For the six nodes and eight lines of the surplus
graph the data file holds six line records: the lines 6 and 7, which stand at the
indices 6 and 7 of the registry, are never looked at, because the inner loop runs
over the indices below `nodesCount`. (2) For three nodes and the single line 1
the search for the line id 0 goes on to `lines[1]`, an entry at `linesCount`. -/
theorem line_loop_bounded_by_nodes :
    surplusNodes.length = 6 ∧ surplusLines.length = 8
      ∧ writeSnapshot wholeValues 128 surplusNodes surplusLines
        = .ok { nodes := surplusNodes.map (nodeRecord wholeValues),
                lines := [(5, 2), (5, 3), (5, 4), (2, 3), (2, 4), (3, 4)] }
      ∧ cutNodes.length = 3 ∧ cutLinesRegistry.length = 1
      ∧ writeSnapshot wholeValues 128 cutNodes cutLinesRegistry = .error .badIndex :=
  ⟨rfl, rfl, rfl, rfl, rfl, rfl⟩

/-! ## Code generator: termination of the two recursive passes -/

/-- An index returned by `GetNodeIndex` is an index of the registry. -/
theorem GetNodeIndex_lt : ∀ (nodes : List FNode) (id : Int) (k : Nat),
    GetNodeIndex nodes id = some k → k < nodes.length
  | [], _, _, h => by simp [GetNodeIndex] at h
  | n :: rest, id, k, h => by
    by_cases hn : n.id = id
    · simp [GetNodeIndex, hn] at h
      subst h
      simp
    · simp only [GetNodeIndex, if_neg hn, Option.map_eq_some'] at h
      obtain ⟨a, ha, rfl⟩ := h
      have := GetNodeIndex_lt rest id a ha
      simp
      omega

/-- A fold of fallible steps returns when every step returns. -/
theorem foldlM_ok (step : Files → Nat → Except Err Files) :
    ∀ (l : List Nat), (∀ i ∈ l, ∀ fs, ∃ fs', step fs i = .ok fs') →
      ∀ fs, ∃ fs', l.foldlM step fs = .ok fs'
  | [], _, fs => ⟨fs, rfl⟩
  | i :: rest, h, fs => by
    obtain ⟨fs1, h1⟩ := h i (List.mem_cons_self _ _) fs
    obtain ⟨fs2, h2⟩ := foldlM_ok step rest (fun k hk => h k (List.mem_cons_of_mem _ hk)) fs1
    exact ⟨fs2, by simp [List.foldlM_cons, h1, bind, Except.bind, h2]⟩

/-- A fold of fallible steps does not fail when every step returns. -/
theorem foldlM_ne_error (step : Files → Nat → Except Err Files) (l : List Nat)
    (h : ∀ i ∈ l, ∀ fs, ∃ fs', step fs i = .ok fs') (fs : Files) (err : Err) :
    l.foldlM step fs ≠ .error err := by
  obtain ⟨fs', h'⟩ := foldlM_ok step l h fs
  rw [h']
  simp

/-- A ranking of the nodes that decreases along every input shows that the input
relation has no cycle. -/
theorem inputsAcyclic_of_rank (nodes : List FNode) (rank : Fin nodes.length → Nat)
    (h : ∀ k j, inputRel nodes k j → rank k < rank j) : inputsAcyclic nodes := by
  have htrans : ∀ k j, Relation.TransGen (inputRel nodes) k j → rank k < rank j := by
    intro k j hkj
    induction hkj with
    | single hr => exact h _ _ hr
    | tail _ hr ih => exact lt_trans ih (h _ _ hr)
  intro j hj
  exact lt_irrefl _ (htrans j j hj)

/-- When the input relation of a registry is well founded and every id held in
a connected slot resolves to a node, `CheckConstant` and `CompileNode` started
from any node of the registry return a result once the bound on the depth of the
recursion is large enough. -/
theorem passes_return_of_wf (nodes : List FNode) (junk : Int)
    (hres : inputsResolve nodes) (hwf : WellFounded (inputRel nodes)) (j : Fin nodes.length) :
    ∃ fuel0, ∀ fuel, fuel0 ≤ fuel → ∀ (fs : Files) (file : Stream) (fragment : Bool),
      (∃ fs', CheckConstant nodes junk fuel (nodes.get j) fs file = .ok fs')
        ∧ (∃ fs', CompileNode nodes fuel (nodes.get j) fs file fragment = .ok fs') := by
  induction j using hwf.induction with
  | _ j ih =>
    have ih' : ∀ k : Fin nodes.length, ∃ f0, inputRel nodes k j →
        ∀ fuel, f0 ≤ fuel → ∀ (fs : Files) (file : Stream) (fragment : Bool),
          (∃ fs', CheckConstant nodes junk fuel (nodes.get k) fs file = .ok fs')
            ∧ (∃ fs', CompileNode nodes fuel (nodes.get k) fs file fragment = .ok fs') := by
      intro k
      by_cases hk : inputRel nodes k j
      · obtain ⟨f0, hf0⟩ := ih k hk
        exact ⟨f0, fun _ => hf0⟩
      · exact ⟨0, fun h => absurd h hk⟩
    choose F hF using ih'
    refine ⟨Finset.univ.sup F + 1, ?_⟩
    intro fuel hfuel fs file fragment
    obtain ⟨fuel', rfl⟩ : ∃ fuel', fuel = fuel' + 1 := ⟨fuel - 1, by omega⟩
    have hinput : ∀ i, i < (nodes.get j).inputsCount.toNat →
        ∃ k : Fin nodes.length,
          nodeAt nodes (GetNodeIndex nodes ((nodes.get j).input i)) = .ok (nodes.get k)
            ∧ inputRel nodes k j ∧ F k ≤ fuel' := by
      intro i hi
      have hsome := hres j i hi
      obtain ⟨k, hk⟩ := Option.isSome_iff_exists.mp hsome
      have hlt := GetNodeIndex_lt nodes _ k hk
      refine ⟨⟨k, hlt⟩, ?_, ⟨i, hi, hk⟩, ?_⟩
      · rw [hk]
        simp [nodeAt, List.getElem?_eq_getElem hlt]
      · have : F ⟨k, hlt⟩ ≤ Finset.univ.sup F := Finset.le_sup (Finset.mem_univ _)
        omega
    constructor
    · rw [CheckConstant]
      split
      any_goals exact ⟨_, rfl⟩
      apply foldlM_ok
      intro i hi fs1
      obtain ⟨k, hk, hrel, hle⟩ := hinput i (List.mem_range.mp hi)
      obtain ⟨fs2, h2⟩ := (hF k hrel fuel' hle fs1 file fragment).1
      exact ⟨fs2, by simp only [hk, bind, Except.bind, h2]⟩
    · rw [CompileNode]
      split_ifs with hc
      · simp only [bind, Except.bind]
        split
        · rename_i err heq
          exfalso
          refine foldlM_ne_error _ _ ?_ fs err heq
          intro i hi fs1
          obtain ⟨k, hk, hrel, hle⟩ := hinput i (List.mem_range.mp hi)
          obtain ⟨fs2, h2⟩ := (hF k hrel fuel' hle fs1 file fragment).2
          by_cases ht : (nodes.get k).type.rank > FNODE_VECTOR4.rank
              ∨ isUniform (nodes.get k).type = true
          · exact ⟨fs2, by simp only [hk, if_pos ht, h2]⟩
          · exact ⟨fs1, by simp only [hk, if_neg ht, pure, Except.pure]⟩
        · split_ifs
          · exact ⟨_, rfl⟩
          · exact ⟨_, rfl⟩
      · exact ⟨_, rfl⟩

/-- Claim C30: in a registry whose input relation has no cycle and in which
every id held in a connected slot resolves to a node, `CheckConstant` and
`CompileNode` started from any node of the registry return a result once the
bound on the depth of the recursion is large enough, whatever the files, the
stream and the stage are. -/
theorem passes_terminate (nodes : List FNode) (junk : Int)
    (hres : inputsResolve nodes) (hacyc : inputsAcyclic nodes) (j : Fin nodes.length) :
    ∃ fuel0, ∀ fuel, fuel0 ≤ fuel → ∀ (fs : Files) (file : Stream) (fragment : Bool),
      (∃ fs', CheckConstant nodes junk fuel (nodes.get j) fs file = .ok fs')
        ∧ (∃ fs', CompileNode nodes fuel (nodes.get j) fs file fragment = .ok fs') := by
  have hirrefl : ∀ k, ¬ Relation.TransGen (inputRel nodes) k k := hacyc
  haveI : IsIrrefl (Fin nodes.length) (Relation.TransGen (inputRel nodes)) := ⟨hirrefl⟩
  have hfinite : WellFounded (Relation.TransGen (inputRel nodes)) :=
    Finite.wellFounded_of_trans_of_irrefl _
  have hwf : WellFounded (inputRel nodes) :=
    Subrelation.wf (fun h => Relation.TransGen.single h) hfinite
  obtain ⟨fuel0, hfuel0⟩ := passes_return_of_wf nodes junk hres hwf j
  exact ⟨fuel0, fun fuel hfuel fs file fragment => hfuel0 fuel hfuel fs file fragment⟩

/-- Claim C30 on the diamond graph, started from the `Add` node 4: every
connected slot resolves, the ranking `diamondRank` decreases along every input,
and the two passes return for every large enough bound. -/
theorem passes_terminate_witness :
    inputsResolve diamondGraph ∧ inputsAcyclic diamondGraph
      ∧ ∃ fuel0, ∀ fuel, fuel0 ≤ fuel → ∀ (fs : Files) (file : Stream) (fragment : Bool),
          (∃ fs', CheckConstant diamondGraph 0 fuel (diamondGraph.get ⟨4, by decide⟩) fs file
              = .ok fs')
            ∧ (∃ fs', CompileNode diamondGraph fuel (diamondGraph.get ⟨4, by decide⟩) fs file
                fragment = .ok fs') :=
  ⟨by decide, inputsAcyclic_of_rank diamondGraph diamondRank (by decide),
    passes_terminate diamondGraph 0 (by decide)
      (inputsAcyclic_of_rank diamondGraph diamondRank (by decide)) ⟨4, by decide⟩⟩

/-! ## Generated text: where names can occur -/

/-- The characters of two strings, one after the other. -/
theorem toList_append (a b : String) : (a ++ b).toList = a.toList ++ b.toList := by
  simp [String.toList]

/-- The text `rejectionComponent` is the text of its pieces. -/
theorem rejectionComponent_toks (a b : Int) (c : String) :
    (rejectionComponent (nodeName a) (nodeName b) c).toList = tokChars (rejectionToks a b c) := by
  simp [rejectionComponent, rejectionToks, tokChars, Tok.chars, toList_append]

end FNodeEditor
